import Mathlib

/-!
# FinBuddy text-to-transaction extraction pipeline: a shallow embedding

This file embeds the deterministic extraction core of the FinBuddy
repository (SMS / voice / email / PDF-statement parsers, the unified
categorization agent, and the provider-fallback orchestration around them)
as executable Lean definitions, and proves the specification claims about
them.

Modelling conventions:
* Python strings are modelled as `List Char` (`Str`).  Case conversion and
  the `\w` / `\s` regex classes are modelled at ASCII precision (Python's
  behaviour on the ASCII inputs these parsers are written for).
* Python `float` amounts are modelled as `ℚ`: every amount in this code is
  produced by `float()` on a captured decimal-digit string, and the claims
  only compare amounts against decimal constants.
* `re.search` is modelled by a small backtracking engine (`Tok`, `reMatches`,
  `reSearch`) over the exact token shapes used by the source patterns
  (literals, greedy character-class repeats, literal alternations, word
  boundaries), with Python's leftmost-then-greedy-with-backtracking
  preference order.
* `datetime.now()` is impure; drafts are modelled without their `date`
  field except where a claim depends on date parsing (the PDF channel,
  where the parsed date is pure).
-/

set_option maxRecDepth 10000

abbrev Str := List Char

/-- ASCII model of Python's `str.lower` on one character. -/
def pyLowerChar (c : Char) : Char := c.toLower

/-- ASCII model of Python's `str.upper` on one character. -/
def pyUpperChar (c : Char) : Char := c.toUpper

/-- Lower-case a whole string (Python `str.lower`, ASCII fragment). -/
def lowerStr (s : Str) : Str := s.map pyLowerChar

/-- Python `\s` (ASCII fragment): space, tab, newline, CR, VT, FF. -/
def pyWs (c : Char) : Bool :=
  c = ' ' || c = '\t' || c = '\n' || c = '\x0d' || c = '\x0b' || c = '\x0c'

/-- ASCII letter. -/
def isAlphaA (c : Char) : Bool :=
  ('a' ≤ c && c ≤ 'z') || ('A' ≤ c && c ≤ 'Z')

/-- ASCII digit. -/
def isDigitA (c : Char) : Bool := '0' ≤ c && c ≤ '9'

/-- Python `\w` (ASCII fragment): letter, digit or underscore. -/
def isWordChar (c : Char) : Bool := isAlphaA c || isDigitA c || c = '_'

/-- Python `str.strip()`: drop leading and trailing whitespace. -/
def pyStrip (s : Str) : Str :=
  ((s.dropWhile pyWs).reverse.dropWhile pyWs).reverse

theorem length_dropWhile_le (p : Char → Bool) :
    ∀ l : Str, (l.dropWhile p).length ≤ l.length := by
  intro l
  induction l with
  | nil => simp [List.dropWhile]
  | cons c t ih =>
    by_cases h : p c
    · simp only [List.dropWhile, h]
      exact Nat.le_trans ih (by simp)
    · simp [List.dropWhile, h]

/-- Python `str.split()` with no argument: split on whitespace runs,
no empty pieces. -/
def pySplit : Str → List Str
  | [] => []
  | c :: t =>
    if pyWs c then pySplit t
    else (c :: t.takeWhile (fun x => !pyWs x)) :: pySplit (t.dropWhile (fun x => !pyWs x))
termination_by s => s.length
decreasing_by
  · simp
  · simp only [List.length_cons, Nat.lt_succ_iff]
    exact length_dropWhile_le _ t

/-- Join pieces with a single space (Python `" ".join`). -/
def joinSpace : List Str → Str
  | [] => []
  | [w] => w
  | w :: ws => w ++ ' ' :: joinSpace ws

/-- One step of Python `str.title()`: `cased` tells whether the previous
character was a (ASCII) letter. -/
def titleAux (cased : Bool) : Str → Str
  | [] => []
  | c :: t =>
    if isAlphaA c then
      (if cased then pyLowerChar c else pyUpperChar c) :: titleAux true t
    else
      c :: titleAux false t

/-- Python `str.title()` (ASCII fragment). -/
def pyTitle (s : Str) : Str := titleAux false s

/-- Substring test, Python's `needle in hay`. -/
def isSubstr (n : Str) (h : Str) : Bool :=
  if n.isPrefixOf h then true
  else match h with
    | [] => false
    | _ :: t => isSubstr n t

/-! ## A small regex engine

The source parsers only ever use `re.search` with patterns built from
literal strings, greedy character-class repeats (`+`, `*`, `?`, `{m,n}`),
literal alternations and `\b` word boundaries, with exactly one capturing
group.  `reMatches` enumerates, in Python's backtracking preference order,
the ways a token list can match a prefix of the text; `reSearch` scans
start positions left to right and returns the capture of the first match.
-/

inductive Tok where
  | lit : Str → Tok
  | cls : (Char → Bool) → Nat → Option Nat → Tok
  | alts : List Str → Tok
  | wb : Tok

/-- Is there a `\b` boundary between a previous character and the next? -/
def wbOk (prev : Option Char) (next : Option Char) : Bool :=
  (prev.elim false isWordChar) != (next.elim false isWordChar)

/-- Length of the longest prefix of `s` whose characters satisfy `p`. -/
def runLen (p : Char → Bool) : Str → Nat
  | [] => 0
  | c :: t => if p c then runLen p t + 1 else 0

/-- The repeat counts a greedy `{min,max}` class repeat tries, longest
first, given that at most `run` class characters are available. -/
def greedyCounts (mn : Nat) (mx : Option Nat) (run : Nat) : List Nat :=
  let hi := match mx with | none => run | some m => min m run
  (List.range (hi + 1 - mn)).map (fun i => hi - i)

/-- All ways `toks` can match a prefix of `s`, in backtracking preference
order.  Each result is the character preceding the rest (for `\b`) and the
rest of the text. -/
def reMatches : List Tok → Option Char → Str → List (Option Char × Str)
  | [], prev, s => [(prev, s)]
  | Tok.lit l :: ts, prev, s =>
    if l.isPrefixOf s then
      reMatches ts (l.getLast?.elim prev some) (s.drop l.length)
    else []
  | Tok.alts ls :: ts, prev, s =>
    ls.flatMap (fun l =>
      if l.isPrefixOf s then
        reMatches ts (l.getLast?.elim prev some) (s.drop l.length)
      else [])
  | Tok.cls p mn mx :: ts, prev, s =>
    (greedyCounts mn mx (runLen p s)).flatMap (fun n =>
      reMatches ts ((s.take n).getLast?.elim prev some) (s.drop n))
  | Tok.wb :: ts, prev, s =>
    if wbOk prev s.head? then reMatches ts prev s else []

/-- A search pattern with exactly one capturing group: the tokens before
the group, the group itself, and the tokens after it. -/
structure RePat where
  pre : List Tok
  grp : List Tok
  post : List Tok

/-- Try to match `p` at the current position; on success return the text
captured by the group (first alternative in preference order). -/
def tryMatch (p : RePat) (prev : Option Char) (s : Str) : Option Str :=
  (reMatches p.pre prev s).findSome? (fun pr1 =>
    (reMatches p.grp pr1.1 pr1.2).findSome? (fun pr2 =>
      if (reMatches p.post pr2.1 pr2.2).isEmpty then none
      else some (pr1.2.take (pr1.2.length - pr2.2.length))))

/-- `re.search`: scan start positions left to right (try a match at the
current position; on failure advance one character). -/
def reSearchFrom (p : RePat) (prev : Option Char) : Str → Option Str
  | [] =>
    match tryMatch p prev [] with
    | some cap => some cap
    | none => none
  | c :: t =>
    match tryMatch p prev (c :: t) with
    | some cap => some cap
    | none => reSearchFrom p (some c) t

/-- `re.search(pattern, s)`, returning `group(1)` of the first match. -/
def reSearch (p : RePat) (s : Str) : Option Str := reSearchFrom p none s

/-! ## Python `float()` on captured amount strings

The captures fed to `float()` in this repository consist of ASCII digits,
commas (already removed by the caller) and at most one dot. -/

/-- Value of a digit string (caller checks all characters are digits). -/
def digitsToNat (s : Str) : Nat :=
  s.foldl (fun a c => a * 10 + (c.toNat - 48)) 0

/-- `float(s)` for `s` made of digits and at most one dot; `none` models
Python raising `ValueError`.  The value of `a.b` is the exact rational
`(digits of a followed by digits of b) / 10 ^ |b|`, built with `mkRat` so
that concrete drafts evaluate inside the kernel. -/
def pyFloat? (s : Str) : Option ℚ :=
  match s.splitOn '.' with
  | [a] =>
    if a ≠ [] && a.all isDigitA then some (mkRat (digitsToNat a) 1) else none
  | [a, b] =>
    if (a ++ b) ≠ [] && a.all isDigitA && b.all isDigitA then
      some (mkRat (digitsToNat (a ++ b)) (10 ^ b.length))
    else none
  | _ => none

/-- Python `s.replace(",", "")`. -/
def removeCommas (s : Str) : Str := s.filter (fun c => c ≠ ',')

/-! ## Character classes used by the source patterns -/

def digitComma (c : Char) : Bool := isDigitA c || c = ','

def dotCls (c : Char) : Bool := c = '.'

/-- `[:\s]` -/
def colonWs (c : Char) : Bool := c = ':' || pyWs c

/-- `[A-Za-z0-9 .&_\-]` (SMS counterparty patterns). -/
def cpClsSms (c : Char) : Bool :=
  isAlphaA c || isDigitA c || c = ' ' || c = '.' || c = '&' || c = '_' || c = '-'

/-- `[A-Za-z0-9@ .&_\-]` (SMS `via`, and all email merchant patterns). -/
def cpClsSmsAt (c : Char) : Bool := cpClsSms c || c = '@'

/-- `[a-z0-9 .&_-]` (voice merchant patterns). -/
def cpClsVoice (c : Char) : Bool :=
  ('a' ≤ c && c ≤ 'z') || isDigitA c || c = ' ' || c = '.' || c = '&' || c = '_' || c = '-'

/-- `[a-z0-9 .&@_-]` (voice `via` pattern). -/
def cpClsVoiceAt (c : Char) : Bool := cpClsVoice c || c = '@'

/-- Separator class of the date patterns: slash or dash. -/
def sepCls (c : Char) : Bool := c = '/' || c = '-'

/-- `[A-Za-z]` -/
def alphaCls (c : Char) : Bool := isAlphaA c

/-- Group `([\d,]+\.?\d*)` shared by the currency-prefixed patterns. -/
def amtGrp : List Tok :=
  [Tok.cls digitComma 1 none, Tok.cls dotCls 0 (some 1), Tok.cls isDigitA 0 none]

/-! ## backend/parsers/sms_parser.py -/

/-- `AMOUNT_PATTERNS` of `sms_parser.py`, in source order. -/
def SMS_AMOUNT_PATTERNS : List RePat :=
  [ ⟨[Tok.lit ("inr".toList), Tok.cls pyWs 0 none], amtGrp, []⟩,
    ⟨[Tok.lit ("rs".toList), Tok.cls dotCls 0 (some 1), Tok.cls pyWs 0 none], amtGrp, []⟩,
    ⟨[Tok.lit ("₹".toList), Tok.cls pyWs 0 none], amtGrp, []⟩,
    ⟨[Tok.lit ("amount".toList), Tok.cls pyWs 0 none], amtGrp, []⟩,
    ⟨[Tok.lit ("amt".toList), Tok.cls colonWs 0 none], amtGrp, []⟩,
    ⟨[], [Tok.cls digitComma 1 none, Tok.lit (".".toList), Tok.cls isDigitA 2 (some 2)], []⟩ ]

/-- The "safe fallback" pattern `\b(\d{3,7})\b`. -/
def bareIntPat : RePat := ⟨[Tok.wb], [Tok.cls isDigitA 3 (some 7)], [Tok.wb]⟩

/-- `COUNTERPARTY_PATTERNS` of `sms_parser.py`, in source order. -/
def SMS_COUNTERPARTY_PATTERNS : List RePat :=
  [ ⟨[Tok.lit ("from".toList), Tok.cls pyWs 1 none], [Tok.cls cpClsSms 1 none], []⟩,
    ⟨[Tok.lit ("to".toList), Tok.cls pyWs 1 none], [Tok.cls cpClsSms 1 none], []⟩,
    ⟨[Tok.lit ("via".toList), Tok.cls pyWs 1 none], [Tok.cls cpClsSmsAt 1 none], []⟩,
    ⟨[Tok.lit ("at".toList), Tok.cls pyWs 1 none], [Tok.cls cpClsSms 1 none], []⟩,
    ⟨[Tok.lit ("merchant".toList), Tok.cls colonWs 1 none], [Tok.cls cpClsSms 1 none], []⟩,
    ⟨[Tok.lit ("sent".toList), Tok.cls pyWs 1 none, Tok.lit ("to".toList), Tok.cls pyWs 1 none],
      [Tok.cls cpClsSms 1 none], []⟩,
    ⟨[Tok.lit ("received".toList), Tok.cls pyWs 1 none, Tok.lit ("from".toList), Tok.cls pyWs 1 none],
      [Tok.cls cpClsSms 1 none], []⟩ ]

/-- The noise-word list of `clean_counterparty`. -/
def smsNoise : List Str :=
  [("upi".toList), ("ref".toList), ("txn".toList), ("id".toList), ("no".toList), ("bank".toList)]

/-- `clean_counterparty` of `sms_parser.py`. -/
def clean_counterparty (cp : Str) : Str :=
  let cp1 := pyStrip cp
  let parts := pySplit cp1
  let filtered := parts.filter (fun p => !smsNoise.contains (lowerStr p))
  let cpClean := joinSpace filtered
  let cpClean := if cpClean.isEmpty then cp1 else cpClean
  pyTitle cpClean

/-- `CATEGORY_RULES` of `backend/utils/constants.py`, in source order. -/
def CATEGORY_RULES : List (Str × String) :=
  [ (("salary".toList), "Income: Salary"),
    (("credited".toList), "Income: Other"),
    (("credit".toList), "Income: Other"),
    (("neft".toList), "Income: Transfer"),
    (("imps".toList), "Income: Transfer"),
    (("upi received".toList), "Income: Transfer"),
    (("payout".toList), "Income: Freelance"),
    (("received".toList), "Income: Other"),
    (("refund".toList), "Income: Refund"),
    (("cashback".toList), "Income: Cashback"),
    (("zomato".toList), "Expense: Food & Dining"),
    (("swiggy".toList), "Expense: Food & Dining"),
    (("dominos".toList), "Expense: Food & Dining"),
    (("kfc".toList), "Expense: Food & Dining"),
    (("restaurant".toList), "Expense: Food & Dining"),
    (("hotel".toList), "Expense: Food & Dining"),
    (("food".toList), "Expense: Food & Dining"),
    (("dining".toList), "Expense: Food & Dining"),
    (("uber".toList), "Expense: Travel"),
    (("ola".toList), "Expense: Travel"),
    (("rapido".toList), "Expense: Travel"),
    (("irctc".toList), "Expense: Travel"),
    (("metro".toList), "Expense: Travel"),
    (("train".toList), "Expense: Travel"),
    (("flight".toList), "Expense: Travel"),
    (("petrol".toList), "Expense: Fuel"),
    (("diesel".toList), "Expense: Fuel"),
    (("fuel".toList), "Expense: Fuel"),
    (("amazon".toList), "Expense: Shopping"),
    (("flipkart".toList), "Expense: Shopping"),
    (("myntra".toList), "Expense: Shopping"),
    (("ajio".toList), "Expense: Shopping"),
    (("bigbasket".toList), "Expense: Groceries"),
    (("dmart".toList), "Expense: Groceries"),
    (("kirana".toList), "Expense: Groceries"),
    (("grocery".toList), "Expense: Groceries"),
    (("airtel".toList), "Expense: Utility"),
    (("jio".toList), "Expense: Utility"),
    (("vodafone".toList), "Expense: Utility"),
    (("vi".toList), "Expense: Utility"),
    (("electricity".toList), "Expense: Utility"),
    (("water".toList), "Expense: Utility"),
    (("gas".toList), "Expense: Utility"),
    (("gas bill".toList), "Expense: Utility"),
    (("water bill".toList), "Expense: Utility"),
    (("mobile recharge".toList), "Expense: Utility"),
    (("recharge".toList), "Expense: Utility"),
    (("rent".toList), "Expense: Housing"),
    (("maintenance".toList), "Expense: Housing"),
    (("society".toList), "Expense: Housing"),
    (("emi".toList), "Expense: Loan EMI"),
    (("installment".toList), "Expense: Loan EMI"),
    (("loan".toList), "Expense: Loan EMI"),
    (("credit card".toList), "Expense: Credit Card Payment"),
    (("hospital".toList), "Expense: Healthcare"),
    (("doctor".toList), "Expense: Healthcare"),
    (("medical".toList), "Expense: Healthcare"),
    (("pharmacy".toList), "Expense: Healthcare"),
    (("apollo".toList), "Expense: Healthcare"),
    (("netflix".toList), "Expense: Entertainment"),
    (("prime video".toList), "Expense: Entertainment"),
    (("amazon prime".toList), "Expense: Entertainment"),
    (("hotstar".toList), "Expense: Entertainment"),
    (("disney".toList), "Expense: Entertainment"),
    (("spotify".toList), "Expense: Entertainment"),
    (("movie".toList), "Expense: Entertainment"),
    (("mutual fund".toList), "Expense: Investment"),
    (("stock".toList), "Expense: Investment"),
    (("zerodha".toList), "Expense: Investment"),
    (("groww".toList), "Expense: Investment"),
    (("default".toList), "Expense: Other") ]

/-- `categorize_transaction` of `sms_parser.py`: first `CATEGORY_RULES`
keyword contained in the text wins, else a type-based default. -/
def smsCategorize (textLow : Str) (txnType : String) : String :=
  match CATEGORY_RULES.find? (fun kv => isSubstr kv.1 textLow) with
  | some kv => kv.2
  | none =>
    if txnType = "Credited" then "Income: Other"
    else if txnType = "Debited" then "Expense: Other"
    else "Unknown"

/-- Credit keywords of `parse_sms` (note the padded `" credit "`, `" cr "`). -/
def smsCreditKws : List Str :=
  [("credited".toList), (" credit ".toList), (" cr ".toList), ("received".toList)]

/-- Debit keywords of `parse_sms`. -/
def smsDebitKws : List Str :=
  [("debited".toList), (" debit ".toList), (" dr ".toList), ("spent".toList), ("paid".toList)]

/-- The transaction-type if/elif/else chain of `parse_sms`. -/
def smsTxnType (textLow : Str) : String :=
  if smsCreditKws.any (fun k => isSubstr k textLow) then "Credited"
  else if smsDebitKws.any (fun k => isSubstr k textLow) then "Debited"
  else "Unknown"

/-- The shared pattern→`float`→break loop of the amount extractors: the
first pattern whose capture parses wins; a matched but unparseable capture
falls through to the next pattern (`except: continue`); result defaults
to `0.0`. -/
def amountLoop : List RePat → Str → ℚ
  | [], _ => 0
  | p :: ps, t =>
    match reSearch p t with
    | none => amountLoop ps t
    | some cap =>
      match pyFloat? (removeCommas cap) with
      | some v => v
      | none => amountLoop ps t

/-- Amount extraction of `parse_sms`: the pattern loop, then the
`\b(\d{3,7})\b` safe fallback if the result is still `0.0`.  The fallback
capture is all digits, so its `float()` cannot fail. -/
def smsAmount (textLow : Str) : ℚ :=
  let amount := amountLoop SMS_AMOUNT_PATTERNS textLow
  if amount = 0 then
    match reSearch bareIntPat textLow with
    | some cap => (pyFloat? cap).getD 0
    | none => 0
  else amount

/-- Counterparty loop of `parse_sms`: first pattern whose cleaned capture
has length `> 1` wins; default `"Unknown"`. -/
def smsCounterpartyLoop : List RePat → Str → Str
  | [], _ => ("Unknown".toList)
  | p :: ps, t =>
    match reSearch p t with
    | none => smsCounterpartyLoop ps t
    | some cap =>
      let cp := clean_counterparty cap
      if cp.length > 1 then cp else smsCounterpartyLoop ps t

/-- A transaction draft (the `date` field, `datetime.now()`-based for this
channel, is omitted as clock-dependent). -/
structure SMSDraft where
  txn_type : String
  amount : ℚ
  counterparty : Str
  message : Str
  category : String
deriving DecidableEq

/-- `parse_sms` of `backend/parsers/sms_parser.py`. -/
def parse_sms (text : Str) : SMSDraft :=
  let textLow := pyStrip (lowerStr text)
  let txnType := smsTxnType textLow
  { txn_type := txnType
    amount := smsAmount textLow
    counterparty := smsCounterpartyLoop SMS_COUNTERPARTY_PATTERNS textLow
    message := text
    category := smsCategorize textLow txnType }

/-! ## backend/parsers/voice_parser.py -/

/-- `VOICE_CATEGORY_KEYWORDS`, in source order. -/
def VOICE_CATEGORY_KEYWORDS : List (String × List Str) :=
  [ ("Travel", [("petrol".toList), ("diesel".toList), ("fuel".toList), ("cab".toList),
      ("auto".toList), ("ola".toList), ("uber".toList)]),
    ("Food & Dining", [("food".toList), ("khana".toList), ("restaurant".toList),
      ("zomato".toList), ("swiggy".toList), ("burger".toList), ("pizza".toList)]),
    ("Groceries", [("kirana".toList), ("grocery".toList), ("sabzi".toList),
      ("vegetable".toList), ("dairy".toList), ("milk".toList), ("store".toList)]),
    ("Shopping", [("shopping".toList), ("amazon".toList), ("flipkart".toList),
      ("myntra".toList), ("mall".toList), ("dress".toList), ("clothes".toList)]),
    ("Utilities", [("bill".toList), ("electricity".toList), ("water".toList),
      ("gas".toList), ("recharge".toList), ("dth".toList), ("mobile".toList)]),
    ("Entertainment", [("movie".toList), ("netflix".toList), ("prime".toList), ("hotstar".toList)]),
    ("Housing", [("rent".toList), ("maintenance".toList)]),
    ("Medical", [("medicine".toList), ("medical".toList), ("chemist".toList), ("hospital".toList)]),
    ("Income: Salary", [("salary".toList), ("income".toList), ("credited".toList),
      ("paisa aya".toList), ("received".toList)]) ]

/-- The voice amount patterns, in source order. -/
def VOICE_AMOUNT_PATTERNS : List RePat :=
  [ ⟨[Tok.lit ("₹".toList), Tok.cls pyWs 0 none], amtGrp, []⟩,
    ⟨[Tok.lit ("rs".toList), Tok.cls dotCls 0 (some 1), Tok.cls pyWs 0 none], amtGrp, []⟩,
    ⟨[Tok.lit ("inr".toList), Tok.cls pyWs 0 none], amtGrp, []⟩,
    ⟨[], [Tok.cls digitComma 1 none],
      [Tok.cls pyWs 0 none, Tok.alts [("rupaye".toList), ("rs".toList), ("rupees".toList)]]⟩,
    ⟨[], [Tok.cls digitComma 1 none],
      [Tok.cls pyWs 0 none, Tok.alts [("spent".toList), ("kharch".toList), ("pay".toList)]]⟩ ]

/-- The early-return pattern loop of `extract_amount` in `voice_parser.py`:
`some v` as soon as a pattern's capture parses as a float (`return
float(...)` — even when that float is `0.0`), `none` when every pattern
either fails to match or has an unparseable capture (`except: continue`). -/
def voiceAmountLoop : List RePat → Str → Option ℚ
  | [], _ => none
  | p :: ps, t =>
    match reSearch p t with
    | none => voiceAmountLoop ps t
    | some cap =>
      match pyFloat? (removeCommas cap) with
      | some v => some v
      | none => voiceAmountLoop ps t

/-- `extract_amount` of `voice_parser.py`: the first pattern whose capture
parses is returned immediately (including a parsed `0.0`); only when no
pattern yields a parseable capture does the `\b(\d{3,7})\b` fallback run,
and `0.0` is returned when that fails too. -/
def voiceExtractAmount (textLow : Str) : ℚ :=
  match voiceAmountLoop VOICE_AMOUNT_PATTERNS textLow with
  | some v => v
  | none =>
    match reSearch bareIntPat textLow with
    | some cap => (pyFloat? cap).getD 0
    | none => 0

/-- `detect_category` of `voice_parser.py`. -/
def voiceDetectCategory (textLow : Str) : String :=
  match VOICE_CATEGORY_KEYWORDS.find? (fun ck => ck.2.any (fun k => isSubstr k textLow)) with
  | some ck => ck.1
  | none => "Miscellaneous"

/-- The voice merchant patterns, in source order. -/
def VOICE_MERCHANT_PATTERNS : List RePat :=
  [ ⟨[Tok.lit ("from".toList), Tok.cls pyWs 1 none], [Tok.cls cpClsVoice 1 none], []⟩,
    ⟨[Tok.lit ("to".toList), Tok.cls pyWs 1 none], [Tok.cls cpClsVoice 1 none], []⟩,
    ⟨[Tok.lit ("at".toList), Tok.cls pyWs 1 none], [Tok.cls cpClsVoice 1 none], []⟩,
    ⟨[Tok.lit ("via".toList), Tok.cls pyWs 1 none], [Tok.cls cpClsVoiceAt 1 none], []⟩ ]

/-- The `keyword_merchants` fallback table of `detect_counterparty`. -/
def VOICE_KEYWORD_MERCHANTS : List (Str × Str) :=
  [ (("amazon".toList), ("Amazon".toList)),
    (("flipkart".toList), ("Flipkart".toList)),
    (("zomato".toList), ("Zomato".toList)),
    (("swiggy".toList), ("Swiggy".toList)),
    (("uber".toList), ("Uber".toList)),
    (("ola".toList), ("Ola".toList)),
    (("kirana".toList), ("Kirana Store".toList)),
    (("petrol".toList), ("Petrol Pump".toList)),
    (("restaurant".toList), ("Restaurant".toList)) ]

/-- `detect_counterparty` of `voice_parser.py`. -/
def voiceDetectCounterparty (textLow : Str) : Str :=
  match VOICE_MERCHANT_PATTERNS.findSome? (fun p => reSearch p textLow) with
  | some cap => pyTitle (pyStrip cap)
  | none =>
    match VOICE_KEYWORD_MERCHANTS.find? (fun kv => isSubstr kv.1 textLow) with
    | some kv => kv.2
    | none => ("Voice Entry".toList)

/-- Credit keywords of `detect_txn_type` in `voice_parser.py`. -/
def voiceCreditKws : List Str :=
  [("salary".toList), ("income".toList), ("credited".toList), ("paisa aya".toList), ("received".toList)]

/-- `detect_txn_type` of `voice_parser.py`: `Credited` on any credit
keyword, otherwise `Debited` (never `Unknown`). -/
def detect_txn_type (textLow : Str) : String :=
  if voiceCreditKws.any (fun k => isSubstr k textLow) then "Credited" else "Debited"

/-- `parse_voice_command` of `voice_parser.py` (the `date` field,
`datetime.now()`, is omitted as clock-dependent; the message prefix
`"Voice command: "` is kept). -/
def parse_voice_command (text : Str) : SMSDraft :=
  let textLow := lowerStr text
  let amount0 := voiceExtractAmount textLow
  let amount := if amount0 = 0 then (100 : ℚ) else amount0
  { txn_type := detect_txn_type textLow
    amount := amount
    counterparty := voiceDetectCounterparty textLow
    message := ("Voice command: ".toList) ++ text
    category := voiceDetectCategory textLow }

/-! ## backend/parsers/bank_email_parser.py -/

/-- `AMOUNT_PATTERNS` of `bank_email_parser.py` (note the mojibake
rupee-sign literal `"â‚¹"` from the source file). -/
def EMAIL_AMOUNT_PATTERNS : List RePat :=
  [ ⟨[Tok.lit ("inr".toList), Tok.cls pyWs 0 none], amtGrp, []⟩,
    ⟨[Tok.lit ("rs".toList), Tok.cls dotCls 0 (some 1), Tok.cls pyWs 0 none], amtGrp, []⟩,
    ⟨[Tok.lit ("â‚¹".toList), Tok.cls pyWs 0 none], amtGrp, []⟩,
    ⟨[Tok.lit ("amount".toList), Tok.cls pyWs 0 none], amtGrp, []⟩,
    ⟨[Tok.lit ("amt".toList), Tok.cls colonWs 0 none], amtGrp, []⟩ ]

/-- `CREDIT_KEYWORDS` of `bank_email_parser.py`. -/
def emailCreditKws : List Str :=
  [("credited".toList), ("received".toList), ("deposit".toList), ("income".toList)]

/-- `DEBIT_KEYWORDS` of `bank_email_parser.py`. -/
def emailDebitKws : List Str :=
  [("debited".toList), ("spent".toList), ("paid".toList), ("withdrawn".toList), ("charged".toList)]

/-- `MERCHANT_PATTERNS` of `bank_email_parser.py`, in source order. -/
def EMAIL_MERCHANT_PATTERNS : List RePat :=
  [ ⟨[Tok.lit ("from".toList), Tok.cls pyWs 1 none], [Tok.cls cpClsSmsAt 1 none], []⟩,
    ⟨[Tok.lit ("to".toList), Tok.cls pyWs 1 none], [Tok.cls cpClsSmsAt 1 none], []⟩,
    ⟨[Tok.lit ("merchant".toList), Tok.cls colonWs 1 none], [Tok.cls cpClsSmsAt 1 none], []⟩,
    ⟨[Tok.lit ("by".toList), Tok.cls pyWs 1 none], [Tok.cls cpClsSmsAt 1 none], []⟩,
    ⟨[Tok.lit ("via".toList), Tok.cls pyWs 1 none], [Tok.cls cpClsSmsAt 1 none], []⟩ ]

/-- `CATEGORY_KEYWORDS` of `bank_email_parser.py`, in source order. -/
def EMAIL_CATEGORY_KEYWORDS : List (String × List Str) :=
  [ ("Salary", [("salary".toList), ("payout".toList), ("credited".toList), ("income".toList)]),
    ("Shopping", [("amazon".toList), ("flipkart".toList), ("myntra".toList), ("order".toList)]),
    ("Food & Dining", [("zomato".toList), ("swiggy".toList), ("restaurant".toList)]),
    ("Travel", [("uber".toList), ("ola".toList), ("ride".toList)]),
    ("Utilities", [("bill".toList), ("recharge".toList), ("electricity".toList),
      ("water".toList), ("dth".toList)]),
    ("Medical", [("pharmacy".toList), ("medical".toList), ("chemist".toList)]),
    ("Refund", [("refund".toList), ("reversed".toList), ("reversal".toList)]) ]

/-- `detect_category` of `bank_email_parser.py`. -/
def emailDetectCategory (textLow : Str) : String :=
  match EMAIL_CATEGORY_KEYWORDS.find? (fun ck => ck.2.any (fun k => isSubstr k textLow)) with
  | some ck => ck.1
  | none => "Other"

/-- Noise list of the email `clean_counterparty` (no `"bank"` here). -/
def emailNoise : List Str :=
  [("upi".toList), ("ref".toList), ("txn".toList), ("id".toList), ("no".toList)]

/-- `clean_counterparty` of `bank_email_parser.py`. -/
def emailCleanCounterparty (cp : Str) : Str :=
  let parts := pySplit cp
  let filtered := parts.filter (fun p => !emailNoise.contains (lowerStr p))
  let cpClean := pyStrip (joinSpace filtered)
  if cpClean.isEmpty then pyTitle cp else pyTitle cpClean

/-- The transaction-type if/elif/else chain of `parse_email_text`. -/
def emailTxnType (textLow : Str) : String :=
  if emailCreditKws.any (fun k => isSubstr k textLow) then "Credited"
  else if emailDebitKws.any (fun k => isSubstr k textLow) then "Debited"
  else "Unknown"

/-- `parse_email_text` of `bank_email_parser.py` (pure fragment: the
`date` field and the outer `try/except` around it are clock-dependent and
omitted; all modelled steps are total). -/
def parse_email_text (text : Str) : SMSDraft :=
  let textLow := lowerStr text
  { txn_type := emailTxnType textLow
    amount := amountLoop EMAIL_AMOUNT_PATTERNS textLow
    counterparty :=
      match EMAIL_MERCHANT_PATTERNS.findSome? (fun p => reSearch p textLow) with
      | some cap => emailCleanCounterparty cap
      | none => ("Unknown".toList)
    message := text
    category := emailDetectCategory textLow }

/-! ## backend/services/ai_agents/categorization_agent.py

Each entry of `category_map` is a word-boundary pattern
`\b<kw>\b` (or `\breceive(d)?\b` / `\binvest(ment)?\b`, expanded into
their two alternatives in greedy order). -/

/-- Build the `RePat` for `\b(alt1|alt2|...)\b`. -/
def wordPat (alts : List Str) : RePat := ⟨[Tok.wb], [Tok.alts alts], [Tok.wb]⟩

/-- `category_map` of `CategorizationAgent`, in source (insertion) order. -/
def category_map : List (List Str × String) :=
  [ ([("salary".toList)], "Income"),
    ([("credited".toList)], "Income"),
    ([("received".toList), ("receive".toList)], "Income"),
    ([("deposit".toList)], "Income"),
    ([("refund".toList)], "Refund"),
    ([("cashback".toList)], "Refund"),
    ([("reward".toList)], "Refund"),
    ([("food".toList)], "Food & Dining"),
    ([("restaurant".toList)], "Food & Dining"),
    ([("dining".toList)], "Food & Dining"),
    ([("zomato".toList)], "Food & Dining"),
    ([("swiggy".toList)], "Food & Dining"),
    ([("khana".toList)], "Food & Dining"),
    ([("shopping".toList)], "Shopping"),
    ([("amazon".toList)], "Shopping"),
    ([("flipkart".toList)], "Shopping"),
    ([("myntra".toList)], "Shopping"),
    ([("kirana".toList)], "Groceries"),
    ([("grocery".toList)], "Groceries"),
    ([("milk".toList)], "Groceries"),
    ([("petrol".toList)], "Travel"),
    ([("fuel".toList)], "Travel"),
    ([("diesel".toList)], "Travel"),
    ([("uber".toList)], "Travel"),
    ([("ola".toList)], "Travel"),
    ([("bus".toList)], "Travel"),
    ([("train".toList)], "Travel"),
    ([("flight".toList)], "Travel"),
    ([("bill".toList)], "Utilities"),
    ([("electricity".toList)], "Utilities"),
    ([("water".toList)], "Utilities"),
    ([("internet".toList)], "Utilities"),
    ([("mobile".toList)], "Utilities"),
    ([("recharge".toList)], "Utilities"),
    ([("rent".toList)], "Housing"),
    ([("maintenance".toList)], "Housing"),
    ([("emi".toList)], "Loan / EMI"),
    ([("loan".toList)], "Loan / EMI"),
    ([("installment".toList)], "Loan / EMI"),
    ([("medical".toList)], "Healthcare"),
    ([("hospital".toList)], "Healthcare"),
    ([("doctor".toList)], "Healthcare"),
    ([("medicine".toList)], "Healthcare"),
    ([("movie".toList)], "Entertainment"),
    ([("netflix".toList)], "Entertainment"),
    ([("prime".toList)], "Entertainment"),
    ([("hotstar".toList)], "Entertainment"),
    ([("investment".toList), ("invest".toList)], "Investment"),
    ([("mutual fund".toList)], "Investment"),
    ([("stock".toList)], "Investment"),
    ([("sip".toList)], "Investment"),
    ([("insurance".toList)], "Insurance"),
    ([("premium".toList)], "Insurance") ]

/-- `CategorizationAgent.categorize_transaction`: first `category_map`
pattern that `re.search`-matches the lowercased text wins; otherwise the
amount-tier fallback; otherwise `"Uncategorized"`. -/
def categorize_transaction (text : Str) (amount : ℚ) : String :=
  let t := lowerStr text
  match category_map.find? (fun pc => (reSearch (wordPat pc.1) t).isSome) with
  | some pc => pc.2
  | none =>
    if amount ≥ 25000 then "High-Value Expense"
    else if amount ≥ 10000 then "Large Expense"
    else if amount ≥ 3000 then "General Expense"
    else "Uncategorized"

/-! ## backend/parsers/pdf_statement_parser.py -/

/-- `DATE_PATTERNS` of `pdf_statement_parser.py`, in source order. -/
def PDF_DATE_PATTERNS : List RePat :=
  [ ⟨[], [Tok.cls isDigitA 1 (some 2), Tok.cls sepCls 1 (some 1), Tok.cls isDigitA 1 (some 2),
      Tok.cls sepCls 1 (some 1), Tok.cls isDigitA 2 (some 4)], []⟩,
    ⟨[], [Tok.cls isDigitA 4 (some 4), Tok.cls sepCls 1 (some 1), Tok.cls isDigitA 1 (some 2),
      Tok.cls sepCls 1 (some 1), Tok.cls isDigitA 1 (some 2)], []⟩,
    ⟨[], [Tok.cls isDigitA 1 (some 2), Tok.cls pyWs 1 none, Tok.cls alphaCls 3 (some 9),
      Tok.cls pyWs 1 none, Tok.cls isDigitA 2 (some 4)], []⟩ ]

/-- `AMOUNT_PATTERNS` of `pdf_statement_parser.py`, in source order. -/
def PDF_AMOUNT_PATTERNS : List RePat :=
  [ ⟨[], [Tok.cls digitComma 1 none, Tok.lit (".".toList), Tok.cls isDigitA 2 (some 2)], []⟩,
    ⟨[], [Tok.cls digitComma 1 none], []⟩ ]

/-- `DEBIT_KEYWORDS` of `pdf_statement_parser.py`. -/
def pdfDebitKws : List Str :=
  [("debit".toList), ("dr".toList), ("withdrawal".toList), ("spent".toList), ("paid".toList)]

/-- `CREDIT_KEYWORDS` of `pdf_statement_parser.py`. -/
def pdfCreditKws : List Str :=
  [("credit".toList), ("cr".toList), ("deposit".toList), ("received".toList)]

/-- The `merchant_keywords` list of `parse_pdf_statement`. -/
def pdfMerchantKws : List Str :=
  [("upi".toList), ("amazon".toList), ("flipkart".toList), ("swiggy".toList), ("zomato".toList),
   ("petrol".toList), ("store".toList), ("shop".toList), ("paytm".toList), ("ola".toList),
   ("uber".toList)]

/-! ### `datetime.strptime` for the formats the repository tries

Only the date (day, month, year) matters here; `strptime` is modelled as a
backtracking reader per directive, exactly CPython's `_strptime` regexes:
`%d` = `(3[01]|[12]\d|0[1-9]|[1-9])`, `%m` = `(1[0-2]|0[1-9]|[1-9])`,
`%y` = two digits (pivot 69), `%Y` = four digits, `%B`/`%b` = month names,
a space in the format = `\s+`; the whole string must be consumed and the
day validated against the month (else `ValueError`). -/

structure PDate where
  year : Nat
  month : Nat
  day : Nat
deriving DecidableEq

/-- Alternatives (in regex order) for the `%d` directive. -/
def readDay (s : Str) : List (Nat × Str) :=
  (match s with
   | c1 :: c2 :: t =>
     if isDigitA c1 && isDigitA c2 then
       let v := (c1.toNat - 48) * 10 + (c2.toNat - 48)
       if 1 ≤ v && v ≤ 31 && c1 ≠ '0' then [(v, t)] else []
     else []
   | _ => []) ++
  (match s with
   | c1 :: c2 :: t =>
     if c1 = '0' && isDigitA c2 && c2 ≠ '0' then [(c2.toNat - 48, t)]
     else []
   | _ => []) ++
  (match s with
   | c1 :: t => if isDigitA c1 && c1 ≠ '0' then [(c1.toNat - 48, t)] else []
   | _ => [])

/-- Alternatives (in regex order) for the `%m` directive. -/
def readMonth (s : Str) : List (Nat × Str) :=
  (match s with
   | c1 :: c2 :: t =>
     if (c1 = '1' && ('0' ≤ c2 && c2 ≤ '2')) || (c1 = '0' && isDigitA c2 && c2 ≠ '0') then
       [((c1.toNat - 48) * 10 + (c2.toNat - 48), t)]
     else []
   | _ => []) ++
  (match s with
   | c1 :: t => if isDigitA c1 && c1 ≠ '0' then [(c1.toNat - 48, t)] else []
   | _ => [])

/-- `%Y`: exactly four digits. -/
def readYear4 (s : Str) : List (Nat × Str) :=
  match s with
  | c1 :: c2 :: c3 :: c4 :: t =>
    if isDigitA c1 && isDigitA c2 && isDigitA c3 && isDigitA c4 then
      [((c1.toNat - 48) * 1000 + (c2.toNat - 48) * 100 + (c3.toNat - 48) * 10 + (c4.toNat - 48), t)]
    else []
  | _ => []

/-- `%y`: exactly two digits, pivoted (`00–68 → 2000s`, `69–99 → 1900s`). -/
def readYear2 (s : Str) : List (Nat × Str) :=
  match s with
  | c1 :: c2 :: t =>
    if isDigitA c1 && isDigitA c2 then
      let v := (c1.toNat - 48) * 10 + (c2.toNat - 48)
      [(if v ≤ 68 then 2000 + v else 1900 + v, t)]
    else []
  | _ => []

def monthNamesFull : List (Str × Nat) :=
  [ (("january".toList), 1), (("february".toList), 2), (("march".toList), 3),
    (("april".toList), 4), (("may".toList), 5), (("june".toList), 6),
    (("july".toList), 7), (("august".toList), 8), (("september".toList), 9),
    (("october".toList), 10), (("november".toList), 11), (("december".toList), 12) ]

def monthNamesAbbr : List (Str × Nat) :=
  [ (("jan".toList), 1), (("feb".toList), 2), (("mar".toList), 3), (("apr".toList), 4),
    (("may".toList), 5), (("jun".toList), 6), (("jul".toList), 7), (("aug".toList), 8),
    (("sep".toList), 9), (("oct".toList), 10), (("nov".toList), 11), (("dec".toList), 12) ]

/-- `%B` / `%b`: a month name (input is already lowercased). -/
def readMonthName (names : List (Str × Nat)) (s : Str) : List (Nat × Str) :=
  names.filterMap (fun nv =>
    if nv.1.isPrefixOf s then some (nv.2, s.drop nv.1.length) else none)

/-- A literal separator character in a format. -/
def readSep (c : Char) (s : Str) : List (Unit × Str) :=
  match s with
  | c1 :: t => if c1 = c then [((), t)] else []
  | _ => []

/-- Whitespace in a format matches `\s+`. -/
def readWs (s : Str) : List (Unit × Str) :=
  let n := runLen pyWs s
  if n = 0 then [] else (List.range n).map (fun i => ((), s.drop (n - i)))

/-- Leap year (Gregorian). -/
def isLeap (y : Nat) : Bool := y % 4 = 0 && (y % 100 ≠ 0 || y % 400 = 0)

/-- Days in a month. -/
def daysInMonth (y m : Nat) : Nat :=
  if m = 2 then (if isLeap y then 29 else 28)
  else if m = 4 || m = 6 || m = 9 || m = 11 then 30
  else 31

/-- `datetime(y, m, d)` validation (`MINYEAR = 1`; the directive regexes
already bound month to 1–12 and day to 1–31). -/
def validDate (y m d : Nat) : Bool := 1 ≤ y && 1 ≤ d && d ≤ daysInMonth y m

/-- The directives making up one format string. -/
inductive Dir where
  | day | month | year4 | year2 | monthFull | monthAbbr
  | sep : Char → Dir
  | ws

/-- Read one directive, returning `(day?, month?, year?)` updates. -/
def readDir : Dir → Str → List ((Nat → Nat → Nat → Nat × Nat × Nat) × Str)
  | Dir.day, s => (readDay s).map (fun vr => (fun _ m y => (vr.1, m, y), vr.2))
  | Dir.month, s => (readMonth s).map (fun vr => (fun d _ y => (d, vr.1, y), vr.2))
  | Dir.year4, s => (readYear4 s).map (fun vr => (fun d m _ => (d, m, vr.1), vr.2))
  | Dir.year2, s => (readYear2 s).map (fun vr => (fun d m _ => (d, m, vr.1), vr.2))
  | Dir.monthFull, s => (readMonthName monthNamesFull s).map (fun vr => (fun d _ y => (d, vr.1, y), vr.2))
  | Dir.monthAbbr, s => (readMonthName monthNamesAbbr s).map (fun vr => (fun d _ y => (d, vr.1, y), vr.2))
  | Dir.sep c, s => (readSep c s).map (fun vr => (fun d m y => (d, m, y), vr.2))
  | Dir.ws, s => (readWs s).map (fun vr => (fun d m y => (d, m, y), vr.2))

/-- Run a format over the string with backtracking; succeed only if the
whole string is consumed, collecting day/month/year. -/
def runFormat : List Dir → Nat × Nat × Nat → Str → List (Nat × Nat × Nat)
  | [], dmy, s => if s.isEmpty then [dmy] else []
  | d :: ds, dmy, s =>
    (readDir d s).flatMap (fun fr =>
      runFormat ds (fr.1 dmy.1 dmy.2.1 dmy.2.2) fr.2)

/-- `datetime.strptime(raw, fmt).date()`, as an `Option`. -/
def strptime (fmt : List Dir) (raw : Str) : Option PDate :=
  match runFormat fmt (1, 1, 1900) raw with
  | [] => none
  | dmy :: _ =>
    if validDate dmy.2.2 dmy.2.1 dmy.1 then some ⟨dmy.2.2, dmy.2.1, dmy.1⟩ else none

/-- The format list tried by `parse_pdf_statement`, in source order. -/
def PDF_FORMATS : List (List Dir) :=
  [ [Dir.day, Dir.sep '-', Dir.month, Dir.sep '-', Dir.year4],
    [Dir.day, Dir.sep '/', Dir.month, Dir.sep '/', Dir.year4],
    [Dir.day, Dir.sep '-', Dir.month, Dir.sep '-', Dir.year2],
    [Dir.day, Dir.sep '/', Dir.month, Dir.sep '/', Dir.year2],
    [Dir.year4, Dir.sep '-', Dir.month, Dir.sep '-', Dir.day],
    [Dir.day, Dir.ws, Dir.monthFull, Dir.ws, Dir.year4],
    [Dir.day, Dir.ws, Dir.monthAbbr, Dir.ws, Dir.year4] ]

/-- The per-pattern date-extraction loop of `parse_pdf_statement`: the
first `DATE_PATTERNS` match whose raw text some format parses wins; a
matched but unparseable raw date leaves `date_found = None` and the next
pattern is tried. -/
def pdfExtractDate (lineLow : Str) : Option PDate :=
  PDF_DATE_PATTERNS.findSome? (fun p =>
    match reSearch p lineLow with
    | none => none
    | some raw => PDF_FORMATS.findSome? (fun fmt => strptime fmt raw))

/-- The transaction-type if/elif/else chain of `parse_pdf_statement`
(credit keywords checked first). -/
def pdfTxnType (lineLow : Str) : String :=
  if pdfCreditKws.any (fun k => isSubstr k lineLow) then "Credited"
  else if pdfDebitKws.any (fun k => isSubstr k lineLow) then "Debited"
  else "Unknown"

/-- Merchant detection of `parse_pdf_statement`: first contained keyword,
title-cased, else `"Unknown"`. -/
def pdfMerchant (lineLow : Str) : Str :=
  match pdfMerchantKws.find? (fun k => isSubstr k lineLow) with
  | some k => pyTitle k
  | none => ("Unknown".toList)

/-- A PDF-statement draft (this channel's `date` is parsed, hence pure). -/
structure PDFDraft where
  txn_type : String
  amount : ℚ
  counterparty : Str
  date : PDate
  message : Str
  category : String
deriving DecidableEq

/-- The body of `parse_pdf_statement`'s per-line loop: `None` when the
line is skipped (`continue`), otherwise the single appended draft. -/
def pdfLineDraft (line : Str) : Option PDFDraft :=
  let lineLow := lowerStr line
  match pdfExtractDate lineLow with
  | none => none
  | some d =>
    let amount := amountLoop PDF_AMOUNT_PATTERNS lineLow
    if amount ≤ 0 then none
    else some
      { txn_type := pdfTxnType lineLow
        amount := amount
        counterparty := pdfMerchant lineLow
        date := d
        message := line
        category := "Statement Entry" }

/-- The stripped non-empty lines of the input. -/
def pdfLines (text : Str) : List Str :=
  ((text.splitOn '\n').map pyStrip).filter (fun l => !l.isEmpty)

structure PDFResult where
  total_extracted : Nat
  transactions : List PDFDraft
deriving DecidableEq

/-- `parse_pdf_statement` of `backend/parsers/pdf_statement_parser.py`. -/
def parse_pdf_statement (text : Str) : PDFResult :=
  let transactions := (pdfLines text).filterMap pdfLineDraft
  { total_extracted := transactions.length, transactions := transactions }

/-! ## backend/services/ai_agents/sms_agent.py and
backend/services/ai_orchestrator.py

The external AI providers (network calls, JSON cleaning/validation and
normalisation of their replies) are impure collaborators; one provider
attempt is modelled as an oracle returning `none` for any failure (missing
response, markdown/JSON cleaning failure, missing keys, exception) or
`some` normalised four-field dict.  The possibility that the rule-based
parser itself raises is modelled by passing the parser as an
`Except`-valued function; the pure instantiation is
`fun t => Except.ok (parse_sms t)`. -/

inductive Provider where
  | groq | openai | gemini | cohere
deriving DecidableEq

def providerName : Provider → String
  | Provider.groq => "groq"
  | Provider.openai => "openai"
  | Provider.gemini => "gemini"
  | Provider.cohere => "cohere"

/-- The four-key dict `_normalize_result` produces. -/
structure NormDraft where
  txn_type : String
  amount : ℚ
  counterparty : Str
  category : String
deriving DecidableEq

/-- The minimal error dict of `analyze_sms`'s final `except` branch. -/
structure ErrDraft where
  txn_type : String
  amount : ℚ
  counterparty : Str
  category : String
  error : String
deriving DecidableEq

/-- The JSON payload carried in `AIResponse.text`. -/
inductive AgentText where
  | norm : NormDraft → AgentText
  | rule : SMSDraft → AgentText
  | err : ErrDraft → AgentText
deriving DecidableEq

structure AIResponse where
  success : Bool
  provider : String
  text : AgentText
deriving DecidableEq

/-- `SMSAgent` configuration: the four API keys (from `settings`) and the
provider-attempt oracle. -/
structure AgentConfig where
  groqKey : Option String
  openaiKey : Option String
  geminiKey : Option String
  cohereKey : Option String
  attempt : Provider → Str → Option NormDraft

/-- `self.providers`, in source (insertion) order. -/
def providersOf (cfg : AgentConfig) : List (Provider × Option String) :=
  [(Provider.groq, cfg.groqKey), (Provider.openai, cfg.openaiKey),
   (Provider.gemini, cfg.geminiKey), (Provider.cohere, cfg.cohereKey)]

/-- The result of the provider loop: the first configured provider whose
attempt succeeds, with its normalised dict (`none` = loop exhausted;
`if not api_key: continue` skips unconfigured providers). -/
def providerResult (cfg : AgentConfig) (text : Str) : Option (Provider × NormDraft) :=
  (providersOf cfg).findSome? (fun pk =>
    match pk.2 with
    | none => none
    | some _ => (cfg.attempt pk.1 text).map (fun d => (pk.1, d)))

/-- `SMSAgent.analyze_sms`: try each configured provider in order; on
exhaustion fall back to the rule-based parser with the category recomputed
by `CategorizationAgent`; if even that raises, return the minimal error
response. -/
def analyze_sms (cfg : AgentConfig) (ruleParse : Str → Except String SMSDraft)
    (text : Str) : AIResponse :=
  match providerResult cfg text with
  | some pd => { success := true, provider := providerName pd.1, text := AgentText.norm pd.2 }
  | none =>
    match ruleParse text with
    | Except.ok parsed =>
      let parsed := { parsed with category := categorize_transaction text parsed.amount }
      { success := true, provider := "rule_based", text := AgentText.rule parsed }
    | Except.error e =>
      { success := false, provider := "error",
        text := AgentText.err ⟨"Unknown", 0, ("Unknown".toList), "Miscellaneous", e⟩ }

/-- The rule-based SMS extraction path alone (`parse_sms` plus the shared
categorizer), the reference point for fallback equivalence. -/
def ruleBasedSMS (text : Str) : SMSDraft :=
  let p := parse_sms text
  { p with category := categorize_transaction text p.amount }

/-- The dict `process_sms` works on after `json.loads`: the AI path has
only the four normalised keys (`message` absent), the rule path has the
full `parse_sms` dict, the error path adds `error`.  The four
`setdefault` calls are no-ops on all three shapes. -/
structure OrchDraft where
  txn_type : String
  amount : ℚ
  counterparty : Str
  category : String
  message : Option Str
  error : Option String
deriving DecidableEq

def payloadToOrch : AgentText → OrchDraft
  | AgentText.norm d => ⟨d.txn_type, d.amount, d.counterparty, d.category, none, none⟩
  | AgentText.rule d => ⟨d.txn_type, d.amount, d.counterparty, d.category, some d.message, none⟩
  | AgentText.err d => ⟨d.txn_type, d.amount, d.counterparty, d.category, none, some d.error⟩

def smsDraftToOrch (d : SMSDraft) : OrchDraft :=
  ⟨d.txn_type, d.amount, d.counterparty, d.category, some d.message, none⟩

/-- Outcome of `AIOrchestrator.process_sms` (the AI-insight and reasoning
annotations are external collaborators and omitted). -/
inductive ProcessResult where
  | ok : String → OrchDraft → String → ProcessResult
  | fail : String → ProcessResult
deriving DecidableEq

/-- `AIOrchestrator.process_sms`.  The whole body runs in a `try`: with
the `Except`-modelled rule parser, the only failure point is the bare
`parse_sms` call of the `else` branch (taken when `analyze_sms` did not
succeed); an error there becomes the outer `except`'s failure dict. -/
def process_sms (cfg : AgentConfig) (ruleParse : Str → Except String SMSDraft)
    (text : Str) : ProcessResult :=
  let smsAi := analyze_sms cfg ruleParse text
  let parsedE : Except String OrchDraft :=
    if smsAi.success then Except.ok (payloadToOrch smsAi.text)
    else (ruleParse text).map smsDraftToOrch
  match parsedE with
  | Except.error e => ProcessResult.fail e
  | Except.ok parsed =>
    let category := categorize_transaction text parsed.amount
    ProcessResult.ok smsAi.provider { parsed with category := category } category

/-- Outcome of `AIOrchestrator.process_voice` after speech-to-text. -/
inductive VoiceOutcome where
  | sttFailure : VoiceOutcome
  | clarification : VoiceOutcome
  | fallbackHint : VoiceOutcome
  | extracted : ProcessResult → VoiceOutcome
deriving DecidableEq

/-- `AIOrchestrator.process_voice`, from the transcript on (speech-to-text
and `nlp.detect_intent` are external; the transcript, intent label and
confidence are inputs).  The three-way confidence gate is the code's
`if confidence < 0.4 ... if 0.4 <= confidence < 0.6 ... else` chain. -/
def process_voice (cfg : AgentConfig) (ruleParse : Str → Except String SMSDraft)
    (transcript : Str) (confidence : ℚ) : VoiceOutcome :=
  let text := pyStrip transcript
  if text.isEmpty || isSubstr ("unavailable".toList) (lowerStr text) then
    VoiceOutcome.sttFailure
  else if confidence < (0.4 : ℚ) then
    VoiceOutcome.clarification
  else if (0.4 : ℚ) ≤ confidence ∧ confidence < (0.6 : ℚ) then
    VoiceOutcome.fallbackHint
  else
    VoiceOutcome.extracted (process_sms cfg ruleParse text)

/-- The pure rule parser: `parse_sms` as actually defined never raises. -/
def realRuleParse : Str → Except String SMSDraft :=
  fun t => Except.ok (parse_sms t)

/-! ## Basic lemmas about the embedded operations -/

theorem mkRat_natCast_nonneg (n : Nat) (d : Nat) : 0 ≤ mkRat (n : Int) d := by
  rw [Rat.mkRat_eq_div]
  positivity

theorem pyFloat?_nonneg (s : Str) (v : ℚ) (h : pyFloat? s = some v) : 0 ≤ v := by
  unfold pyFloat? at h
  rcases hs : s.splitOn '.' with _ | ⟨a, _ | ⟨b, _ | _⟩⟩ <;> simp [hs] at h
  · rcases h with ⟨-, h⟩
    subst h
    positivity
  · rcases h with ⟨-, h⟩
    subst h
    exact mkRat_natCast_nonneg _ _

theorem amountLoop_nonneg (ps : List RePat) (t : Str) : 0 ≤ amountLoop ps t := by
  induction ps with
  | nil => simp [amountLoop]
  | cons p ps ih =>
    rw [amountLoop]
    split
    · exact ih
    · split
      · exact pyFloat?_nonneg _ _ (by assumption)
      · exact ih

theorem getD_pyFloat?_nonneg (cap : Str) : 0 ≤ (pyFloat? cap).getD 0 := by
  cases h : pyFloat? cap with
  | none => simp
  | some v => simpa using pyFloat?_nonneg _ _ h

theorem smsAmount_nonneg (t : Str) : 0 ≤ smsAmount t := by
  simp only [smsAmount]
  split
  · split
    · exact getD_pyFloat?_nonneg _
    · simp
  · exact amountLoop_nonneg _ _

theorem voiceAmountLoop_nonneg (t : Str) :
    ∀ ps : List RePat, ∀ v : ℚ, voiceAmountLoop ps t = some v → 0 ≤ v := by
  intro ps
  induction ps with
  | nil => intro v h; cases h
  | cons p ps ih =>
    intro v h
    rw [voiceAmountLoop] at h
    split at h
    · exact ih v h
    · split at h
      · rename_i hu
        cases h
        exact pyFloat?_nonneg _ _ hu
      · exact ih v h

theorem voiceExtractAmount_nonneg (t : Str) : 0 ≤ voiceExtractAmount t := by
  simp only [voiceExtractAmount]
  split
  · exact voiceAmountLoop_nonneg t _ _ (by assumption)
  · split
    · exact getD_pyFloat?_nonneg _
    · simp

/-- `titleAux` renames characters one for one. -/
theorem titleAux_length (b : Bool) (s : Str) : (titleAux b s).length = s.length := by
  induction s generalizing b with
  | nil => simp [titleAux]
  | cons c t ih => by_cases h : isAlphaA c <;> simp [titleAux, h, ih]

theorem pyTitle_ne_nil (s : Str) (h : s ≠ []) : pyTitle s ≠ [] := by
  intro habs
  apply h
  have := titleAux_length false s
  rw [pyTitle] at habs
  rw [habs] at this
  exact List.eq_nil_of_length_eq_zero this.symm

/-- Two pointwise-equal predicates find the same first element. -/
theorem find?_congr {α : Type} (l : List α) (p q : α → Bool) (h : ∀ a, p a = q a) :
    l.find? p = l.find? q := by
  induction l with
  | nil => rfl
  | cons a t ih => rw [List.find?_cons, List.find?_cons, h a, ih]

/-! ## Claim C9: voice transaction-type detector -/

/-- C9: for every input text, the voice-channel transaction-type detector
returns `Credited` exactly when one of the credit keywords (salary,
income, credited, paisa aya, received) occurs as a substring of the
lowercased text, and returns `Debited` in every other case; it never
returns `Unknown`. -/
theorem C9_voice_txn_type (text : Str) :
    (parse_voice_command text).txn_type =
      (if voiceCreditKws.any (fun k => isSubstr k (lowerStr text)) then "Credited" else "Debited")
    ∧ (parse_voice_command text).txn_type ≠ "Unknown" := by
  refine ⟨rfl, ?_⟩
  show detect_txn_type (lowerStr text) ≠ "Unknown"
  unfold detect_txn_type
  split <;> decide

/-! ## Claim C6: the three-way voice confidence gate -/

/-- C6: for every (transcribable) voice input, confidence strictly below
0.4 yields the clarification response and no extraction; confidence in
[0.4, 0.6) yields the fallback conversational hint and no extraction; and
confidence at or above 0.6 runs the full SMS pipeline on the transcript. -/
theorem C6_voice_confidence_gate (cfg : AgentConfig)
    (ruleParse : Str → Except String SMSDraft) (transcript : Str) (confidence : ℚ)
    (h : (pyStrip transcript).isEmpty = false)
    (hu : isSubstr ("unavailable".toList) (lowerStr (pyStrip transcript)) = false) :
    (confidence < (0.4 : ℚ) →
      process_voice cfg ruleParse transcript confidence = VoiceOutcome.clarification) ∧
    ((0.4 : ℚ) ≤ confidence ∧ confidence < (0.6 : ℚ) →
      process_voice cfg ruleParse transcript confidence = VoiceOutcome.fallbackHint) ∧
    ((0.6 : ℚ) ≤ confidence →
      process_voice cfg ruleParse transcript confidence =
        VoiceOutcome.extracted (process_sms cfg ruleParse (pyStrip transcript))) := by
  have hstt : ((pyStrip transcript).isEmpty
      || isSubstr ("unavailable".toList) (lowerStr (pyStrip transcript))) = false := by
    rw [h, hu]
    rfl
  refine ⟨fun hc => ?_, fun hc => ?_, fun hc => ?_⟩ <;>
    simp only [process_voice, hstt, Bool.false_eq_true, if_false]
  · rw [if_pos hc]
  · rw [if_neg (by linarith [hc.1]), if_pos hc]
  · rw [if_neg (by linarith), if_neg (by rintro ⟨-, h2⟩; linarith)]

/-- A configuration with no API key set for any provider. -/
def noProviderCfg : AgentConfig := ⟨none, none, none, none, fun _ _ => none⟩

/-- Witness for C6 at the boundary confidences 0.39, 0.4 and 0.6. -/
theorem C6_voice_confidence_gate_witness :
    (process_voice noProviderCfg realRuleParse (("record 500 spent on food".toList)) (0.39 : ℚ) =
      VoiceOutcome.clarification) ∧
    (process_voice noProviderCfg realRuleParse (("record 500 spent on food".toList)) (0.4 : ℚ) =
      VoiceOutcome.fallbackHint) ∧
    (process_voice noProviderCfg realRuleParse (("record 500 spent on food".toList)) (0.6 : ℚ) =
      VoiceOutcome.extracted (process_sms noProviderCfg realRuleParse
        (pyStrip ("record 500 spent on food".toList)))) :=
  ⟨(C6_voice_confidence_gate noProviderCfg realRuleParse _ _ (by decide) (by decide)).1
      (by norm_num),
   (C6_voice_confidence_gate noProviderCfg realRuleParse _ _ (by decide) (by decide)).2.1
      ⟨by norm_num, by norm_num⟩,
   (C6_voice_confidence_gate noProviderCfg realRuleParse _ _ (by decide) (by decide)).2.2
      (by norm_num)⟩

/-! ## Claim C4: all providers unconfigured ⇒ exactly the rule-based output -/

/-- C4: if no API key is set for any provider, the SMS agent's output and
the orchestrator's output equal, field for field, the output of the
rule-based extraction path alone (`parse_sms` + the shared categorizer),
tagged `"rule_based"`. -/
theorem C4_fallback_equals_rule_based (cfg : AgentConfig) (text : Str)
    (h1 : cfg.groqKey = none) (h2 : cfg.openaiKey = none)
    (h3 : cfg.geminiKey = none) (h4 : cfg.cohereKey = none) :
    analyze_sms cfg realRuleParse text =
      ⟨true, "rule_based", AgentText.rule (ruleBasedSMS text)⟩ ∧
    process_sms cfg realRuleParse text =
      ProcessResult.ok "rule_based" (smsDraftToOrch (ruleBasedSMS text))
        (ruleBasedSMS text).category := by
  have hp : providerResult cfg text = none := by
    unfold providerResult providersOf
    rw [h1, h2, h3, h4]
    rfl
  have ha : analyze_sms cfg realRuleParse text =
      ⟨true, "rule_based", AgentText.rule (ruleBasedSMS text)⟩ := by
    unfold analyze_sms
    rw [hp]
    rfl
  refine ⟨ha, ?_⟩
  unfold process_sms
  rw [ha]
  rfl

/-- Witness for C4 on a concrete SMS with the all-unconfigured config. -/
theorem C4_fallback_equals_rule_based_witness :
    analyze_sms noProviderCfg realRuleParse ("Paid Rs. 500 to Swiggy for dinner".toList) =
      ⟨true, "rule_based", AgentText.rule (ruleBasedSMS ("Paid Rs. 500 to Swiggy for dinner".toList))⟩ ∧
    process_sms noProviderCfg realRuleParse ("Paid Rs. 500 to Swiggy for dinner".toList) =
      ProcessResult.ok "rule_based"
        (smsDraftToOrch (ruleBasedSMS ("Paid Rs. 500 to Swiggy for dinner".toList)))
        (ruleBasedSMS ("Paid Rs. 500 to Swiggy for dinner".toList)).category :=
  C4_fallback_equals_rule_based noProviderCfg _ rfl rfl rfl rfl

/-! ## Claim C8: a raising rule-based fallback yields the minimal error draft -/

/-- C8: if the provider loop is exhausted and the rule-based fallback
itself raises, `analyze_sms` returns the minimal well-formed error
response (`Unknown` / 0 / `Unknown` / `Miscellaneous` plus the error), and
— being a total function into `AIResponse` — never propagates the
exception to the caller. -/
theorem C8_minimal_error_draft (cfg : AgentConfig) (text : Str) (e : String)
    (hp : providerResult cfg text = none) :
    analyze_sms cfg (fun _ => Except.error e) text =
      ⟨false, "error", AgentText.err ⟨"Unknown", 0, ("Unknown".toList), "Miscellaneous", e⟩⟩ := by
  unfold analyze_sms
  rw [hp]

/-- Witness for C8 at a concrete failing parser. -/
theorem C8_minimal_error_draft_witness :
    analyze_sms noProviderCfg (fun _ => Except.error "unexpected type") ("hello".toList) =
      ⟨false, "error",
        AgentText.err ⟨"Unknown", 0, ("Unknown".toList), "Miscellaneous", "unexpected type"⟩⟩ :=
  C8_minimal_error_draft noProviderCfg _ _ rfl

/-! ## Claim C5: SMS/email transaction-type keyword sets -/

/-- The detector exactly as the claim words it: credit keywords
(credited, received, deposit, income, credit) checked before debit
keywords (debited, spent, paid, withdrawn, charged, debit). -/
def claimC5CreditKws : List Str :=
  [("credited".toList), ("received".toList), ("deposit".toList), ("income".toList),
   ("credit".toList)]

def claimC5DebitKws : List Str :=
  [("debited".toList), ("spent".toList), ("paid".toList), ("withdrawn".toList),
   ("charged".toList), ("debit".toList)]

/-- The transaction-type detector as the claim describes it. -/
def claimC5TxnType (textLow : Str) : String :=
  if claimC5CreditKws.any (fun k => isSubstr k textLow) then "Credited"
  else if claimC5DebitKws.any (fun k => isSubstr k textLow) then "Debited"
  else "Unknown"

/-- C5 is false on the code: `"deposit"` is a claimed credit keyword but
the SMS detector knows only `credited` / `" credit "` / `" cr "` /
`received`, and bare `"credit"` is a claimed credit keyword but the email
detector knows only `credited` / `received` / `deposit` / `income`; both
return `Unknown` where the claim requires `Credited`. -/
theorem C5_counterexample :
    smsTxnType ("deposit of 5000 made".toList) = "Unknown" ∧
    claimC5TxnType ("deposit of 5000 made".toList) = "Credited" ∧
    (parse_sms ("deposit of 5000 made".toList)).txn_type = "Unknown" ∧
    emailTxnType ("credit card bill generated".toList) = "Unknown" ∧
    claimC5TxnType ("credit card bill generated".toList) = "Credited" := by
  refine ⟨by decide, by decide, ?_, by decide, by decide⟩
  show smsTxnType (pyStrip (lowerStr ("deposit of 5000 made".toList))) = "Unknown"
  decide

/-- C5 amended: each channel checks its own credit list before its own
debit list (SMS: credited / `" credit "` / `" cr "` / received, then
debited / `" debit "` / `" dr "` / spent / paid; email: credited /
received / deposit / income, then debited / spent / paid / withdrawn /
charged), a text hitting both lists yields `Credited`, and neither list
hitting yields `Unknown`. -/
theorem C5_amended_txn_type (text t : Str) :
    (smsCreditKws.any (fun k => isSubstr k t) = true → smsTxnType t = "Credited") ∧
    (smsCreditKws.any (fun k => isSubstr k t) = false →
      smsDebitKws.any (fun k => isSubstr k t) = true → smsTxnType t = "Debited") ∧
    (smsCreditKws.any (fun k => isSubstr k t) = false →
      smsDebitKws.any (fun k => isSubstr k t) = false → smsTxnType t = "Unknown") ∧
    (emailCreditKws.any (fun k => isSubstr k t) = true → emailTxnType t = "Credited") ∧
    (emailCreditKws.any (fun k => isSubstr k t) = false →
      emailDebitKws.any (fun k => isSubstr k t) = true → emailTxnType t = "Debited") ∧
    (emailCreditKws.any (fun k => isSubstr k t) = false →
      emailDebitKws.any (fun k => isSubstr k t) = false → emailTxnType t = "Unknown") ∧
    (parse_sms text).txn_type = smsTxnType (pyStrip (lowerStr text)) ∧
    (parse_email_text text).txn_type = emailTxnType (lowerStr text) := by
  refine ⟨fun hc => ?_, fun hc hd => ?_, fun hc hd => ?_,
          fun hc => ?_, fun hc hd => ?_, fun hc hd => ?_, rfl, rfl⟩
  · unfold smsTxnType
    rw [hc]
    simp
  · unfold smsTxnType
    rw [hc, hd]
    simp
  · unfold smsTxnType
    rw [hc, hd]
    simp
  · unfold emailTxnType
    rw [hc]
    simp
  · unfold emailTxnType
    rw [hc, hd]
    simp
  · unfold emailTxnType
    rw [hc, hd]
    simp

/-- Witness for C5 amended: a text containing keywords from both lists is
`Credited` on both channels. -/
theorem C5_amended_txn_type_witness :
    smsTxnType ("credited then debited".toList) = "Credited" ∧
    emailTxnType ("credited then debited".toList) = "Credited" ∧
    smsTxnType ("spent money".toList) = "Debited" ∧
    emailTxnType ("nothing relevant".toList) = "Unknown" :=
  ⟨(C5_amended_txn_type [] _).1 (by decide),
   (C5_amended_txn_type [] _).2.2.2.1 (by decide),
   (C5_amended_txn_type [] _).2.1 (by decide) (by decide),
   (C5_amended_txn_type [] _).2.2.2.2.2.1 (by decide) (by decide)⟩

/-! ## Claim C1: the unified categorization agent

The claim's side is stated with a direct word-boundary occurrence scanner
(`wordOccurs`), independent of the regex engine; the theorem proves the
engine-based `categorize_transaction` against it. -/

/-- A keyword sits at the current position with `\b` boundaries on both
sides. -/
def wordHitHere (kw : Str) (prev : Option Char) (s : Str) : Bool :=
  kw.isPrefixOf s && wbOk prev s.head? &&
    wbOk (kw.getLast?.elim prev some) (s.drop kw.length).head?

/-- A keyword occurs word-bounded at the current or a later position. -/
def wordOccursFrom (kw : Str) (prev : Option Char) : Str → Bool
  | [] => wordHitHere kw prev []
  | c :: t => wordHitHere kw prev (c :: t) || wordOccursFrom kw (some c) t

/-- A keyword occurs somewhere in `t` with word boundaries on both sides
(the claim's reading of `re.search(r"\b...\b", t)`). -/
def wordOccurs (kw t : Str) : Bool := wordOccursFrom kw none t

theorem any_or_distrib {α : Type} (l : List α) (f g : α → Bool) :
    l.any (fun x => f x || g x) = (l.any f || l.any g) := by
  induction l with
  | nil => simp
  | cons a t ih =>
    simp only [List.any_cons, ih]
    cases f a <;> cases g a <;> simp

theorem findSome?_append {α β : Type} (l₁ l₂ : List α) (f : α → Option β) :
    (l₁ ++ l₂).findSome? f = ((l₁.findSome? f).elim (l₂.findSome? f) some) := by
  induction l₁ with
  | nil => simp [List.findSome?]
  | cons a t ih =>
    rw [List.cons_append, List.findSome?, List.findSome?]
    cases f a <;> simp [ih]

theorem any_congr {α : Type} (l : List α) (f g : α → Bool) (h : ∀ a, f a = g a) :
    l.any f = l.any g := by
  induction l with
  | nil => rfl
  | cons a t ih => simp only [List.any_cons, h a, ih]

theorem isSome_findSome? {α β : Type} (l : List α) (f : α → Option β) :
    (l.findSome? f).isSome = l.any (fun a => (f a).isSome) := by
  induction l with
  | nil => rfl
  | cons a t ih =>
    rw [List.findSome?_cons, List.any_cons, ← ih]
    cases f a <;> simp

theorem any_append {α : Type} (l₁ l₂ : List α) (f : α → Bool) :
    (l₁ ++ l₂).any f = (l₁.any f || l₂.any f) := by
  induction l₁ with
  | nil => simp
  | cons a t ih => simp [List.any_cons, ih, Bool.or_assoc]

theorem any_flatMap {α β : Type} (l : List α) (g : α → List β) (f : β → Bool) :
    (l.flatMap g).any f = l.any (fun a => (g a).any f) := by
  induction l with
  | nil => rfl
  | cons a t ih => rw [List.flatMap_cons, any_append, ih, List.any_cons]

theorem reMatches_wb (prev : Option Char) (s : Str) :
    reMatches [Tok.wb] prev s = if wbOk prev s.head? then [(prev, s)] else [] := by
  rw [reMatches]
  split <;> rfl

theorem reMatches_alts_nil (ls : List Str) (prev : Option Char) (s : Str) :
    reMatches [Tok.alts ls] prev s =
      ls.flatMap (fun l =>
        if l.isPrefixOf s then [(l.getLast?.elim prev some, s.drop l.length)] else []) := by
  rw [reMatches]
  exact congrArg ls.flatMap (funext fun l => by split <;> rfl)

/-- One position: the engine's match attempt of `\b(alt1|...)\b` succeeds
exactly when some alternative sits word-bounded here. -/
theorem tryMatch_wordPat (alts : List Str) (prev : Option Char) (s : Str) :
    (tryMatch (wordPat alts) prev s).isSome = alts.any (fun kw => wordHitHere kw prev s) := by
  unfold tryMatch wordPat
  simp only [isSome_findSome?, reMatches_wb, reMatches_alts_nil, any_flatMap]
  by_cases hb : wbOk prev s.head?
  · simp only [hb, if_true, List.any_cons, List.any_nil, Bool.or_false]
    apply any_congr
    intro kw
    by_cases hp : kw.isPrefixOf s
    · simp only [hp, if_true, List.any_cons, List.any_nil, Bool.or_false]
      by_cases hb2 : wbOk (kw.getLast?.elim prev some) (s.drop kw.length).head?
      · simp_all [wordHitHere]
      · simp_all [wordHitHere]
    · simp [hp, wordHitHere]
  · simp only [hb, if_false, List.any_nil]
    rw [any_congr alts _ (fun _ => false) (fun kw => by simp [wordHitHere, hb])]
    simp

/-- Scanning: `re.search` of `\b(alt1|...)\b` succeeds exactly when some
alternative occurs word-bounded. -/
theorem reSearchFrom_wordPat (alts : List Str) :
    ∀ (s : Str) (prev : Option Char),
      (reSearchFrom (wordPat alts) prev s).isSome =
        alts.any (fun kw => wordOccursFrom kw prev s) := by
  intro s
  induction s with
  | nil =>
    intro prev
    rw [any_congr alts _ (fun kw => wordHitHere kw prev []) (fun kw => by rw [wordOccursFrom])]
    rw [← tryMatch_wordPat, reSearchFrom]
    cases htm : tryMatch (wordPat alts) prev [] <;> simp [htm]
  | cons c t ih =>
    intro prev
    rw [any_congr alts _
      (fun kw => wordHitHere kw prev (c :: t) || wordOccursFrom kw (some c) t)
      (fun kw => by rw [wordOccursFrom])]
    rw [any_or_distrib, ← tryMatch_wordPat, ← ih]
    rw [reSearchFrom]
    cases htm : tryMatch (wordPat alts) prev (c :: t) <;> simp [htm]

theorem reSearch_wordPat (alts : List Str) (t : Str) :
    (reSearch (wordPat alts) t).isSome = alts.any (fun kw => wordOccurs kw t) :=
  reSearchFrom_wordPat alts t none

/-- The claim's categorizer: test the word-boundary keyword patterns in
the fixed precedence order of `category_map` and return the first match's
category; otherwise the ≥25000 / ≥10000 / ≥3000 amount tiers; otherwise
`"Uncategorized"`. -/
def claimC1Categorize (text : Str) (amount : ℚ) : String :=
  match category_map.find? (fun pc => pc.1.any (fun kw => wordOccurs kw (lowerStr text))) with
  | some pc => pc.2
  | none =>
    if amount ≥ 25000 then "High-Value Expense"
    else if amount ≥ 10000 then "Large Expense"
    else if amount ≥ 3000 then "General Expense"
    else "Uncategorized"

/-- C1: for every input text and amount, `categorize_transaction` tests
its word-boundary keyword patterns in the fixed precedence order of
`category_map` (income, refund, food, shopping, groceries, travel,
utilities, housing, loan/EMI, healthcare, entertainment, investment,
insurance) and returns the category of the first matching pattern; with no
keyword match it returns "High-Value Expense" for amount ≥ 25000, else
"Large Expense" for amount ≥ 10000, else "General Expense" for
amount ≥ 3000, else "Uncategorized". -/
theorem C1_categorizer_spec (text : Str) (amount : ℚ) :
    categorize_transaction text amount = claimC1Categorize text amount := by
  have h := find?_congr category_map _ _ (fun pc => reSearch_wordPat pc.1 (lowerStr text))
  simp only [categorize_transaction, claimC1Categorize, h]

/-! ## Claim C3: fail-soft amount extraction -/

/-- One pattern's attempt in the amount loop: its capture parsed as a
float (`none` = no match, or matched capture unparseable). -/
def amountAttempt (p : RePat) (t : Str) : Option ℚ :=
  (reSearch p t).bind (fun cap => pyFloat? (removeCommas cap))

theorem amountLoop_eq_zero (t : Str) :
    ∀ ps : List RePat, (∀ p ∈ ps, amountAttempt p t = none) → amountLoop ps t = 0 := by
  intro ps
  induction ps with
  | nil => intro _; rfl
  | cons p ps ih =>
    intro h
    have hp := h p (List.mem_cons_self p ps)
    have hrest : ∀ q ∈ ps, amountAttempt q t = none :=
      fun q hq => h q (List.mem_cons_of_mem p hq)
    unfold amountAttempt at hp
    rw [amountLoop]
    split
    · exact ih hrest
    · split
      · simp_all
      · exact ih hrest

theorem voiceAmountLoop_eq_none (t : Str) :
    ∀ ps : List RePat, (∀ p ∈ ps, amountAttempt p t = none) →
      voiceAmountLoop ps t = none := by
  intro ps
  induction ps with
  | nil => intro _; rfl
  | cons p ps ih =>
    intro h
    have hp := h p (List.mem_cons_self p ps)
    have hrest : ∀ q ∈ ps, amountAttempt q t = none :=
      fun q hq => h q (List.mem_cons_of_mem p hq)
    unfold amountAttempt at hp
    rw [voiceAmountLoop]
    split
    · exact ih hrest
    · split
      · simp_all
      · exact ih hrest

/-- C3 is false on the code as a whole-pipeline statement: on input
`"hello"` no voice amount pattern matches (and the bare-integer fallback
does not either), the voice extractor returns 0.0, but the voice draft's
amount is the hard-coded default 100.0, not 0.0. -/
theorem C3_counterexample :
    (VOICE_AMOUNT_PATTERNS.all
      (fun p => (amountAttempt p (lowerStr ("hello".toList))).isNone)) = true ∧
    (reSearch bareIntPat (lowerStr ("hello".toList))).isNone = true ∧
    voiceExtractAmount (lowerStr ("hello".toList)) = 0 ∧
    (parse_voice_command ("hello".toList)).amount = 100 := by
  refine ⟨by decide, by decide, by decide, by decide⟩

/-- C3 amended: every channel's amount extraction is total and
non-negative; when no amount pattern yields a parseable capture (and, for
SMS/voice, the bare 3–7-digit fallback also fails) the extractor returns
exactly 0.0; the SMS and email drafts keep that 0.0, but
`parse_voice_command` replaces an extracted 0 by the default 100.0. -/
theorem C3_amended_amount (t : Str) :
    (0 ≤ smsAmount t) ∧ (0 ≤ voiceExtractAmount t) ∧
    (0 ≤ amountLoop EMAIL_AMOUNT_PATTERNS t) ∧
    ((∀ p ∈ SMS_AMOUNT_PATTERNS, amountAttempt p t = none) →
      reSearch bareIntPat t = none → smsAmount t = 0) ∧
    ((∀ p ∈ VOICE_AMOUNT_PATTERNS, amountAttempt p t = none) →
      reSearch bareIntPat t = none → voiceExtractAmount t = 0) ∧
    ((∀ p ∈ EMAIL_AMOUNT_PATTERNS, amountAttempt p t = none) →
      amountLoop EMAIL_AMOUNT_PATTERNS t = 0) ∧
    (voiceExtractAmount (lowerStr t) = 0 → (parse_voice_command t).amount = 100) ∧
    (voiceExtractAmount (lowerStr t) ≠ 0 →
      (parse_voice_command t).amount = voiceExtractAmount (lowerStr t)) := by
  refine ⟨smsAmount_nonneg t, voiceExtractAmount_nonneg t, amountLoop_nonneg _ t,
    fun h hbare => ?_, fun h hbare => ?_, fun h => amountLoop_eq_zero t _ h,
    fun h0 => ?_, fun h0 => ?_⟩
  · rw [smsAmount, amountLoop_eq_zero t _ h, if_pos rfl, hbare]
  · rw [voiceExtractAmount, voiceAmountLoop_eq_none t _ h, hbare]
  · show (if voiceExtractAmount (lowerStr t) = 0 then (100 : ℚ)
        else voiceExtractAmount (lowerStr t)) = 100
    rw [if_pos h0]
  · show (if voiceExtractAmount (lowerStr t) = 0 then (100 : ℚ)
        else voiceExtractAmount (lowerStr t)) = voiceExtractAmount (lowerStr t)
    rw [if_neg h0]

/-- Witness for C3 amended: the no-match hypotheses hold at `"hello"`,
the nonzero-extraction branch at `"rs 250 spent"`, and the early-return of
a parsed `0.0` at `"rs 0 spent 500"` (the first parsing pattern returns
`0.0` immediately, the bare-number fallback does not run, and the draft
gets the `100.0` default). -/
theorem C3_amended_amount_witness :
    smsAmount ("hello".toList) = 0 ∧
    voiceExtractAmount ("hello".toList) = 0 ∧
    amountLoop EMAIL_AMOUNT_PATTERNS ("hello".toList) = 0 ∧
    (parse_voice_command ("hello".toList)).amount = 100 ∧
    (parse_voice_command ("rs 250 spent".toList)).amount =
      voiceExtractAmount (lowerStr ("rs 250 spent".toList)) ∧
    voiceExtractAmount ("rs 0 spent 500".toList) = 0 ∧
    (parse_voice_command ("rs 0 spent 500".toList)).amount = 100 :=
  ⟨(C3_amended_amount ("hello".toList)).2.2.2.1 (by decide) (by decide),
   (C3_amended_amount ("hello".toList)).2.2.2.2.1 (by decide) (by decide),
   (C3_amended_amount ("hello".toList)).2.2.2.2.2.1 (by decide),
   (C3_amended_amount ("hello".toList)).2.2.2.2.2.2.1 (by decide),
   (C3_amended_amount ("rs 250 spent".toList)).2.2.2.2.2.2.2 (by decide),
   by decide,
   (C3_amended_amount ("rs 0 spent 500".toList)).2.2.2.2.2.2.1 (by decide)⟩

/-! ## Claim C7: PDF-statement line filter -/

/-- C7: the PDF parser's transaction list is exactly a `filterMap` of the
per-line draft over the stripped non-empty lines (hence at most one draft
per line, and never more drafts than lines), and a line contributes a
draft if and only if its date extraction succeeds and its extracted
amount is strictly positive. -/
theorem C7_pdf_line_filter (text : Str) (line : Str) :
    (parse_pdf_statement text).transactions = (pdfLines text).filterMap pdfLineDraft ∧
    (parse_pdf_statement text).total_extracted =
      ((pdfLines text).filterMap pdfLineDraft).length ∧
    (parse_pdf_statement text).transactions.length ≤ (pdfLines text).length ∧
    ((pdfLineDraft line).isSome ↔
      (pdfExtractDate (lowerStr line)).isSome ∧
        0 < amountLoop PDF_AMOUNT_PATTERNS (lowerStr line)) := by
  refine ⟨rfl, rfl, List.length_filterMap_le _ _, ?_⟩
  simp only [pdfLineDraft]
  split
  · rename_i hd
    simp [hd]
  · rename_i d hd
    by_cases hle : amountLoop PDF_AMOUNT_PATTERNS (lowerStr line) ≤ 0
    · rw [if_pos hle]
      simp [hd]
      exact hle
    · rw [if_neg hle]
      simp [hd, not_le.mp hle]

/-! ## Claim C2: total-field invariant of the draft -/

theorem exists_of_findSome?_eq_some {α β : Type} {l : List α} {f : α → Option β} {b : β}
    (h : l.findSome? f = some b) : ∃ a ∈ l, f a = some b := by
  obtain ⟨l₁, a, l₂, rfl, hfa, -⟩ := List.findSome?_eq_some_iff.mp h
  exact ⟨a, by simp, hfa⟩

theorem runLen_le (p : Char → Bool) : ∀ s : Str, runLen p s ≤ s.length := by
  intro s
  induction s with
  | nil => simp [runLen]
  | cons c t ih =>
    rw [runLen]
    split
    · simpa using ih
    · simp

/-- Matching never grows the text: any residual is no longer than the
input. -/
theorem reMatches_rest_le :
    ∀ (toks : List Tok) (prev : Option Char) (s : Str),
      ∀ pr ∈ reMatches toks prev s, pr.2.length ≤ s.length := by
  intro toks
  induction toks with
  | nil =>
    intro prev s pr hpr
    rw [reMatches] at hpr
    simp at hpr
    simp [hpr]
  | cons tk ts ih =>
    intro prev s pr hpr
    cases tk with
    | lit l =>
      rw [reMatches] at hpr
      by_cases hp : l.isPrefixOf s
      · rw [if_pos hp] at hpr
        have := ih _ _ pr hpr
        simp only [List.length_drop] at this
        omega
      · rw [if_neg hp] at hpr
        cases hpr
    | alts ls =>
      rw [reMatches] at hpr
      obtain ⟨l, -, hpr'⟩ := List.mem_flatMap.mp hpr
      by_cases hp : l.isPrefixOf s
      · rw [if_pos hp] at hpr'
        have := ih _ _ pr hpr'
        simp only [List.length_drop] at this
        omega
      · rw [if_neg hp] at hpr'
        cases hpr'
    | cls p mn mx =>
      rw [reMatches] at hpr
      obtain ⟨n, -, hpr'⟩ := List.mem_flatMap.mp hpr
      have := ih _ _ pr hpr'
      simp only [List.length_drop] at this
      omega
    | wb =>
      rw [reMatches] at hpr
      by_cases hb : wbOk prev s.head?
      · rw [if_pos hb] at hpr
        exact ih _ _ pr hpr
      · rw [if_neg hb] at hpr
        cases hpr

/-- A `[class]+` group consumes at least one character. -/
theorem reMatches_min1_lt (f : Char → Bool) (prev : Option Char) (s : Str) :
    ∀ pr ∈ reMatches [Tok.cls f 1 none] prev s, pr.2.length < s.length := by
  intro pr hpr
  rw [reMatches] at hpr
  obtain ⟨n, hn, hpr'⟩ := List.mem_flatMap.mp hpr
  rw [reMatches] at hpr'
  simp only [List.mem_singleton] at hpr'
  subst hpr'
  unfold greedyCounts at hn
  simp only [List.mem_map, List.mem_range] at hn
  obtain ⟨i, hi, hni⟩ := hn
  have hrun := runLen_le f s
  simp only [List.length_drop]
  omega

/-- If a pattern's group is a `[class]+`, every successful search's
capture is non-empty. -/
theorem tryMatch_min1_ne_nil (p : RePat) (f : Char → Bool)
    (hg : p.grp = [Tok.cls f 1 none]) (prev : Option Char) (s : Str) (cap : Str)
    (h : tryMatch p prev s = some cap) : cap ≠ [] := by
  unfold tryMatch at h
  obtain ⟨pr1, -, h1⟩ := exists_of_findSome?_eq_some h
  obtain ⟨pr2, hpr2, h2⟩ := exists_of_findSome?_eq_some h1
  rw [hg] at hpr2
  have hlt := reMatches_min1_lt f pr1.1 pr1.2 pr2 hpr2
  by_cases hpost : (reMatches p.post pr2.1 pr2.2).isEmpty
  · rw [if_pos hpost] at h2
    cases h2
  · rw [if_neg hpost] at h2
    have hcap : cap = pr1.2.take (pr1.2.length - pr2.2.length) := by
      cases h2
      rfl
    have hlen : cap.length = min (pr1.2.length - pr2.2.length) pr1.2.length := by
      rw [hcap, List.length_take]
    have hpos : 0 < cap.length := by omega
    exact List.length_pos.mp hpos

theorem reSearch_min1_ne_nil (p : RePat) (f : Char → Bool)
    (hg : p.grp = [Tok.cls f 1 none]) :
    ∀ (s : Str) (prev : Option Char) (cap : Str),
      reSearchFrom p prev s = some cap → cap ≠ [] := by
  intro s
  induction s with
  | nil =>
    intro prev cap h
    rw [reSearchFrom] at h
    cases htm : tryMatch p prev [] with
    | some cpt =>
      rw [htm] at h
      cases h
      exact tryMatch_min1_ne_nil p f hg prev [] _ htm
    | none =>
      rw [htm] at h
      cases h
  | cons c t ih =>
    intro prev cap h
    rw [reSearchFrom] at h
    cases htm : tryMatch p prev (c :: t) with
    | some cpt =>
      rw [htm] at h
      cases h
      exact tryMatch_min1_ne_nil p f hg prev (c :: t) _ htm
    | none =>
      rw [htm] at h
      exact ih (some c) cap h

theorem emailCleanCounterparty_ne_nil (cp : Str) (h : cp ≠ []) :
    emailCleanCounterparty cp ≠ [] := by
  simp only [emailCleanCounterparty]
  split
  · exact pyTitle_ne_nil cp h
  · rename_i he
    apply pyTitle_ne_nil
    intro habs
    rw [habs] at he
    exact he rfl

/-- Every email merchant pattern's group is `[class]+` for the class
`cpClsSmsAt`. -/
theorem email_merchant_grp :
    ∀ p ∈ EMAIL_MERCHANT_PATTERNS, p.grp = [Tok.cls cpClsSmsAt 1 none] := by
  intro p hp
  simp only [EMAIL_MERCHANT_PATTERNS, List.mem_cons, List.mem_singleton] at hp
  rcases hp with rfl | rfl | rfl | rfl | rfl | h
  · rfl
  · rfl
  · rfl
  · rfl
  · rfl
  · cases h

theorem email_counterparty_ne_nil (t : Str) :
    (match EMAIL_MERCHANT_PATTERNS.findSome? (fun p => reSearch p t) with
     | some cap => emailCleanCounterparty cap
     | none => ("Unknown".toList)) ≠ [] := by
  cases hf : EMAIL_MERCHANT_PATTERNS.findSome? (fun p => reSearch p t) with
  | none => decide
  | some cap =>
    obtain ⟨p, hp, hcap⟩ := exists_of_findSome?_eq_some hf
    exact emailCleanCounterparty_ne_nil cap
      (reSearch_min1_ne_nil p cpClsSmsAt (email_merchant_grp p hp) t none cap hcap)

theorem smsCounterpartyLoop_ne_nil (t : Str) :
    ∀ ps : List RePat, smsCounterpartyLoop ps t ≠ [] := by
  intro ps
  induction ps with
  | nil =>
    rw [smsCounterpartyLoop]
    decide
  | cons p ps ih =>
    rw [smsCounterpartyLoop]
    split
    · exact ih
    · rename_i cap hcap
      show (if (clean_counterparty cap).length > 1 then clean_counterparty cap
            else smsCounterpartyLoop ps t) ≠ []
      split
      · rename_i hlen
        exact List.length_pos.mp (by omega)
      · exact ih

theorem smsCategorize_ne_empty (t : Str) (ty : String) : smsCategorize t ty ≠ "" := by
  unfold smsCategorize
  split
  · rename_i kv hf
    have hm := List.mem_of_find?_eq_some hf
    have hall : ∀ kv ∈ CATEGORY_RULES, kv.2 ≠ "" := by decide
    exact hall kv hm
  · split
    · decide
    · split
      · decide
      · decide

theorem voiceCategory_ne_empty (t : Str) : voiceDetectCategory t ≠ "" := by
  unfold voiceDetectCategory
  split
  · rename_i ck hf
    have hm := List.mem_of_find?_eq_some hf
    have hall : ∀ ck ∈ VOICE_CATEGORY_KEYWORDS, ck.1 ≠ "" := by decide
    exact hall ck hm
  · decide

theorem emailCategory_ne_empty (t : Str) : emailDetectCategory t ≠ "" := by
  unfold emailDetectCategory
  split
  · rename_i ck hf
    have hm := List.mem_of_find?_eq_some hf
    have hall : ∀ ck ∈ EMAIL_CATEGORY_KEYWORDS, ck.1 ≠ "" := by decide
    exact hall ck hm
  · decide

theorem pdfMerchant_ne_nil (t : Str) : pdfMerchant t ≠ [] := by
  unfold pdfMerchant
  split
  · rename_i k hf
    have hm := List.mem_of_find?_eq_some hf
    have hall : ∀ k ∈ pdfMerchantKws, pyTitle k ≠ [] := by decide
    exact hall k hm
  · decide

/-- C2 is false on the code: on the voice input `"to  "` the merchant
pattern `to\s+([a-z0-9 .&_-]+)` captures a single space (the class
includes the space), `.strip().title()` empties it, and the voice draft's
counterparty is the empty string. -/
theorem C2_counterexample :
    (parse_voice_command ("to  ".toList)).counterparty = [] := by decide

/-- C2 amended: for every input text, the SMS, email and PDF-line drafts
have `txn_type ∈ {Credited, Debited, Unknown}`, `amount ≥ 0` (strictly
positive for emitted PDF lines), non-empty counterparty and non-empty
category; the voice draft has `txn_type ∈ {Credited, Debited}`,
`amount ≥ 0` and non-empty category, but its counterparty may be the
empty string (a prepositional pattern can capture only whitespace). -/
theorem C2_amended_field_invariants (text : Str) :
    ((parse_sms text).txn_type = "Credited" ∨ (parse_sms text).txn_type = "Debited" ∨
      (parse_sms text).txn_type = "Unknown") ∧
    0 ≤ (parse_sms text).amount ∧
    (parse_sms text).counterparty ≠ [] ∧
    (parse_sms text).category ≠ "" ∧
    ((parse_voice_command text).txn_type = "Credited" ∨
      (parse_voice_command text).txn_type = "Debited") ∧
    0 ≤ (parse_voice_command text).amount ∧
    (parse_voice_command text).category ≠ "" ∧
    ((parse_email_text text).txn_type = "Credited" ∨
      (parse_email_text text).txn_type = "Debited" ∨
      (parse_email_text text).txn_type = "Unknown") ∧
    0 ≤ (parse_email_text text).amount ∧
    (parse_email_text text).counterparty ≠ [] ∧
    (parse_email_text text).category ≠ "" ∧
    (∀ d ∈ (parse_pdf_statement text).transactions,
      (d.txn_type = "Credited" ∨ d.txn_type = "Debited" ∨ d.txn_type = "Unknown") ∧
      0 < d.amount ∧ d.counterparty ≠ [] ∧ d.category ≠ "") := by
  refine ⟨?_, smsAmount_nonneg _, smsCounterpartyLoop_ne_nil _ _, smsCategorize_ne_empty _ _,
    ?_, ?_, voiceCategory_ne_empty _,
    ?_, amountLoop_nonneg _ _, email_counterparty_ne_nil _, emailCategory_ne_empty _, ?_⟩
  · show smsTxnType (pyStrip (lowerStr text)) = "Credited" ∨
      smsTxnType (pyStrip (lowerStr text)) = "Debited" ∨
      smsTxnType (pyStrip (lowerStr text)) = "Unknown"
    unfold smsTxnType
    split
    · exact Or.inl rfl
    · split
      · exact Or.inr (Or.inl rfl)
      · exact Or.inr (Or.inr rfl)
  · show detect_txn_type (lowerStr text) = "Credited" ∨
      detect_txn_type (lowerStr text) = "Debited"
    unfold detect_txn_type
    split
    · exact Or.inl rfl
    · exact Or.inr rfl
  · show 0 ≤ (if voiceExtractAmount (lowerStr text) = 0 then (100 : ℚ)
      else voiceExtractAmount (lowerStr text))
    split
    · norm_num
    · exact voiceExtractAmount_nonneg _
  · show emailTxnType (lowerStr text) = "Credited" ∨
      emailTxnType (lowerStr text) = "Debited" ∨
      emailTxnType (lowerStr text) = "Unknown"
    unfold emailTxnType
    split
    · exact Or.inl rfl
    · split
      · exact Or.inr (Or.inl rfl)
      · exact Or.inr (Or.inr rfl)
  · intro d hd
    obtain ⟨line, -, hline⟩ := List.mem_filterMap.mp hd
    simp only [pdfLineDraft] at hline
    split at hline
    · cases hline
    · split at hline
      · cases hline
      · rename_i hle
        cases hline
        refine ⟨?_, not_le.mp hle, pdfMerchant_ne_nil _,
          show ("Statement Entry" : String) ≠ "" by decide⟩
        show pdfTxnType (lowerStr line) = "Credited" ∨
          pdfTxnType (lowerStr line) = "Debited" ∨
          pdfTxnType (lowerStr line) = "Unknown"
        unfold pdfTxnType
        split
        · exact Or.inl rfl
        · split
          · exact Or.inr (Or.inl rfl)
          · exact Or.inr (Or.inr rfl)

/-- Witness for C2 amended, instantiating the PDF conjunct at a concrete
emitted draft. -/
theorem C2_amended_field_invariants_witness :
    0 ≤ (parse_sms ("Paid Rs. 500 to Swiggy".toList)).amount ∧
    ((⟨"Debited", 450, ("Upi".toList), ⟨2023, 3, 12⟩,
        ("12-03-2023 upi payment 450.00 debit".toList), "Statement Entry"⟩ : PDFDraft).txn_type
        = "Credited" ∨
      (⟨"Debited", 450, ("Upi".toList), ⟨2023, 3, 12⟩,
        ("12-03-2023 upi payment 450.00 debit".toList), "Statement Entry"⟩ : PDFDraft).txn_type
        = "Debited" ∨
      (⟨"Debited", 450, ("Upi".toList), ⟨2023, 3, 12⟩,
        ("12-03-2023 upi payment 450.00 debit".toList), "Statement Entry"⟩ : PDFDraft).txn_type
        = "Unknown") ∧
    0 < (450 : ℚ) :=
  ⟨(C2_amended_field_invariants ("Paid Rs. 500 to Swiggy".toList)).2.1,
   ((C2_amended_field_invariants ("12-03-2023 upi payment 450.00 debit".toList)).2.2.2.2.2.2.2.2.2.2.2
      ⟨"Debited", 450, ("Upi".toList), ⟨2023, 3, 12⟩,
        ("12-03-2023 upi payment 450.00 debit".toList), "Statement Entry"⟩ (by decide)).1,
   ((C2_amended_field_invariants ("12-03-2023 upi payment 450.00 debit".toList)).2.2.2.2.2.2.2.2.2.2.2
      ⟨"Debited", 450, ("Upi".toList), ⟨2023, 3, 12⟩,
        ("12-03-2023 upi payment 450.00 debit".toList), "Statement Entry"⟩ (by decide)).2.1⟩

/-! ## Claim C10: idempotence of the SMS counterparty cleaner

Character-level groundwork: ASCII case mapping at the `toNat` level. -/

theorem char_eq_iff_toNat {c d : Char} : c = d ↔ c.toNat = d.toNat :=
  ⟨fun h => h ▸ rfl, fun h => Char.ext (UInt32.toNat.inj h)⟩

theorem char_le_iff_toNat {c d : Char} : c ≤ d ↔ c.toNat ≤ d.toNat := by
  rw [Char.le_def]
  exact Iff.rfl

theorem toNat_ofNat_valid {n : Nat} (h : n < 55296) : (Char.ofNat n).toNat = n := by
  rw [Char.ofNat, dif_pos (Or.inl h)]
  simp [Char.ofNatAux, Char.toNat, UInt32.toNat, BitVec.toNat_ofNatLt]

theorem toNat_pyLowerChar (c : Char) :
    (pyLowerChar c).toNat = if 65 ≤ c.toNat ∧ c.toNat ≤ 90 then c.toNat + 32 else c.toNat := by
  by_cases h : 65 ≤ c.toNat ∧ c.toNat ≤ 90
  · rw [if_pos h]
    simp only [pyLowerChar, Char.toLower]
    rw [if_pos (by omega : c.toNat ≥ 65 ∧ c.toNat ≤ 90)]
    exact toNat_ofNat_valid (by omega)
  · rw [if_neg h]
    simp only [pyLowerChar, Char.toLower]
    rw [if_neg (by omega : ¬(c.toNat ≥ 65 ∧ c.toNat ≤ 90))]

theorem toNat_pyUpperChar (c : Char) :
    (pyUpperChar c).toNat = if 97 ≤ c.toNat ∧ c.toNat ≤ 122 then c.toNat - 32 else c.toNat := by
  by_cases h : 97 ≤ c.toNat ∧ c.toNat ≤ 122
  · rw [if_pos h]
    simp only [pyUpperChar, Char.toUpper]
    rw [if_pos (by omega : c.toNat ≥ 97 ∧ c.toNat ≤ 122)]
    exact toNat_ofNat_valid (by omega)
  · rw [if_neg h]
    simp only [pyUpperChar, Char.toUpper]
    rw [if_neg (by omega : ¬(c.toNat ≥ 97 ∧ c.toNat ≤ 122))]

theorem isAlphaA_iff (c : Char) :
    isAlphaA c = true ↔ ((97 ≤ c.toNat ∧ c.toNat ≤ 122) ∨ (65 ≤ c.toNat ∧ c.toNat ≤ 90)) := by
  unfold isAlphaA
  simp only [Bool.or_eq_true, Bool.and_eq_true, decide_eq_true_eq]
  rw [show ('a' ≤ c ↔ 97 ≤ c.toNat) from char_le_iff_toNat,
      show (c ≤ 'z' ↔ c.toNat ≤ 122) from char_le_iff_toNat,
      show ('A' ≤ c ↔ 65 ≤ c.toNat) from char_le_iff_toNat,
      show (c ≤ 'Z' ↔ c.toNat ≤ 90) from char_le_iff_toNat]

theorem pyWs_iff (c : Char) :
    pyWs c = true ↔ (c.toNat = 32 ∨ c.toNat = 9 ∨ c.toNat = 10 ∨ c.toNat = 13 ∨
      c.toNat = 11 ∨ c.toNat = 12) := by
  unfold pyWs
  simp only [Bool.or_eq_true, decide_eq_true_eq]
  rw [show (c = ' ' ↔ c.toNat = 32) from char_eq_iff_toNat,
      show (c = '\t' ↔ c.toNat = 9) from char_eq_iff_toNat,
      show (c = '\n' ↔ c.toNat = 10) from char_eq_iff_toNat,
      show (c = '\x0d' ↔ c.toNat = 13) from char_eq_iff_toNat,
      show (c = '\x0b' ↔ c.toNat = 11) from char_eq_iff_toNat,
      show (c = '\x0c' ↔ c.toNat = 12) from char_eq_iff_toNat]
  omega

theorem isAlphaA_pyLowerChar (c : Char) : isAlphaA (pyLowerChar c) = isAlphaA c := by
  rw [Bool.eq_iff_iff, isAlphaA_iff, isAlphaA_iff, toNat_pyLowerChar]
  split <;> omega

theorem isAlphaA_pyUpperChar (c : Char) : isAlphaA (pyUpperChar c) = isAlphaA c := by
  rw [Bool.eq_iff_iff, isAlphaA_iff, isAlphaA_iff, toNat_pyUpperChar]
  split <;> omega

theorem pyWs_pyLowerChar (c : Char) : pyWs (pyLowerChar c) = pyWs c := by
  rw [Bool.eq_iff_iff, pyWs_iff, pyWs_iff, toNat_pyLowerChar]
  split <;> omega

theorem pyWs_pyUpperChar (c : Char) : pyWs (pyUpperChar c) = pyWs c := by
  rw [Bool.eq_iff_iff, pyWs_iff, pyWs_iff, toNat_pyUpperChar]
  split <;> omega

theorem pyLower_pyLower (c : Char) : pyLowerChar (pyLowerChar c) = pyLowerChar c := by
  rw [char_eq_iff_toNat, toNat_pyLowerChar, toNat_pyLowerChar]
  split_ifs <;> omega

theorem pyUpper_pyUpper (c : Char) : pyUpperChar (pyUpperChar c) = pyUpperChar c := by
  rw [char_eq_iff_toNat, toNat_pyUpperChar, toNat_pyUpperChar]
  split_ifs <;> omega

theorem pyLower_pyUpper (c : Char) : pyLowerChar (pyUpperChar c) = pyLowerChar c := by
  rw [char_eq_iff_toNat, toNat_pyLowerChar, toNat_pyLowerChar, toNat_pyUpperChar]
  split_ifs <;> omega

theorem alpha_not_ws (c : Char) (h : isAlphaA c = true) : pyWs c = false := by
  cases hw : pyWs c
  · rfl
  · have h1 := (isAlphaA_iff c).mp h
    have h2 := (pyWs_iff c).mp hw
    omega

theorem ws_not_alpha (c : Char) (h : pyWs c = true) : isAlphaA c = false := by
  cases ha : isAlphaA c
  · rfl
  · have h1 := (isAlphaA_iff c).mp ha
    have h2 := (pyWs_iff c).mp h
    omega

/-- The flag after processing `c :: t` is the flag after `t`, started from
`isAlphaA c`. -/
theorem getLast?_cons_elim (c : Char) (t : Str) (b : Bool) :
    ((c :: t).getLast?.elim b isAlphaA) = (t.getLast?.elim (isAlphaA c) isAlphaA) := by
  cases t with
  | nil => rfl
  | cons d u =>
    rw [List.getLast?_cons_cons]
    cases hg : (d :: u).getLast? with
    | none => exact absurd hg (by simp)
    | some e => rfl

theorem titleAux_append (b : Bool) (xs ys : Str) :
    titleAux b (xs ++ ys) = titleAux b xs ++ titleAux (xs.getLast?.elim b isAlphaA) ys := by
  induction xs generalizing b with
  | nil => rfl
  | cons c t ih =>
    rw [List.cons_append]
    by_cases h : isAlphaA c
    · simp [titleAux, h, getLast?_cons_elim, ih]
    · simp [titleAux, h, getLast?_cons_elim, ih]

/-- `title` keeps whitespace exactly where it was. -/
theorem map_pyWs_titleAux (b : Bool) (x : Str) :
    (titleAux b x).map pyWs = x.map pyWs := by
  induction x generalizing b with
  | nil => rfl
  | cons c t ih =>
    by_cases h : isAlphaA c
    · cases b <;>
        simp [titleAux, h, ih, pyWs_pyLowerChar, pyWs_pyUpperChar]
    · simp [titleAux, h, ih]

theorem lowerStr_titleAux (b : Bool) (x : Str) : lowerStr (titleAux b x) = lowerStr x := by
  simp only [lowerStr]
  induction x generalizing b with
  | nil => rfl
  | cons c t ih =>
    by_cases h : isAlphaA c
    · cases b <;> simp [titleAux, h, ih, pyLower_pyLower, pyLower_pyUpper]
    · simp [titleAux, h, ih]

theorem titleAux_titleAux (b : Bool) (x : Str) : titleAux b (titleAux b x) = titleAux b x := by
  induction x generalizing b with
  | nil => rfl
  | cons c t ih =>
    by_cases h : isAlphaA c
    · cases b <;>
        simp [titleAux, h, isAlphaA_pyLowerChar, isAlphaA_pyUpperChar, ih,
          pyLower_pyLower, pyUpper_pyUpper]
    · simp [titleAux, h, ih]

theorem takeWhile_titleAux (b : Bool) (x : Str) :
    (titleAux b x).takeWhile (fun c => !pyWs c) = titleAux b (x.takeWhile (fun c => !pyWs c)) := by
  induction x generalizing b with
  | nil => rfl
  | cons c t ih =>
    by_cases hw : pyWs c
    · have ha := ws_not_alpha c hw
      simp [titleAux, ha, List.takeWhile_cons, hw]
    · by_cases ha : isAlphaA c
      · cases b <;>
          simp [titleAux, ha, List.takeWhile_cons, hw, pyWs_pyLowerChar, pyWs_pyUpperChar, ih]
      · simp [titleAux, ha, List.takeWhile_cons, hw, ih]

theorem dropWhile_titleAux (b : Bool) (x : Str) :
    ∃ f : Bool, (titleAux b x).dropWhile (fun c => !pyWs c) =
      titleAux f (x.dropWhile (fun c => !pyWs c)) := by
  induction x generalizing b with
  | nil => exact ⟨b, rfl⟩
  | cons c t ih =>
    by_cases hw : pyWs c
    · have ha := ws_not_alpha c hw
      exact ⟨b, by simp [titleAux, ha, List.dropWhile_cons, hw]⟩
    · by_cases ha : isAlphaA c
      · cases b with
        | false =>
          obtain ⟨f, hf⟩ := ih true
          exact ⟨f, by simp [titleAux, ha, List.dropWhile_cons, hw, pyWs_pyUpperChar, hf]⟩
        | true =>
          obtain ⟨f, hf⟩ := ih true
          exact ⟨f, by simp [titleAux, ha, List.dropWhile_cons, hw, pyWs_pyLowerChar, hf]⟩
      · obtain ⟨f, hf⟩ := ih false
        exact ⟨f, by simp [titleAux, ha, List.dropWhile_cons, hw, hf]⟩

theorem dropWhile_head_false {p : Char → Bool} :
    ∀ (l : Str) (r : Char) (rest : Str), l.dropWhile p = r :: rest → p r = false := by
  intro l
  induction l with
  | nil => intro r rest h; cases h
  | cons c t ih =>
    intro r rest h
    rw [List.dropWhile_cons] at h
    split at h
    · exact ih r rest h
    · rename_i hc
      cases h
      exact Bool.not_eq_true _ ▸ (by simpa using hc)

theorem head?_dropWhile_false {p : Char → Bool} (l : Str) (c : Char)
    (h : (l.dropWhile p).head? = some c) : p c = false := by
  cases hd : l.dropWhile p with
  | nil => rw [hd] at h; cases h
  | cons r rest =>
    rw [hd] at h
    cases h
    exact dropWhile_head_false l _ _ hd

theorem takeWhile_all {p : Char → Bool} :
    ∀ l : Str, (∀ x ∈ l, p x = true) → l.takeWhile p = l ∧ l.dropWhile p = [] := by
  intro l
  induction l with
  | nil => intro _; exact ⟨rfl, rfl⟩
  | cons c t ih =>
    intro h
    have hc := h c (List.mem_cons_self c t)
    have ht := ih (fun x hx => h x (List.mem_cons_of_mem c hx))
    rw [List.takeWhile_cons, List.dropWhile_cons, hc]
    simp [ht.1, ht.2]

/-- Every `pySplit` piece is non-empty and whitespace-free. -/
theorem pySplit_pieces : ∀ s : Str, ∀ w ∈ pySplit s, w ≠ [] ∧ ∀ c ∈ w, pyWs c = false := by
  intro s
  induction s using pySplit.induct with
  | case1 =>
    intro w hw
    rw [pySplit] at hw
    cases hw
  | case2 c t hws ih =>
    intro w hw
    rw [pySplit, if_pos hws] at hw
    exact ih w hw
  | case3 c t hws ih =>
    intro w hw
    rw [pySplit, if_neg hws] at hw
    rcases List.mem_cons.mp hw with rfl | hw'
    · refine ⟨by simp, ?_⟩
      intro x hx
      rcases List.mem_cons.mp hx with rfl | hx'
      · exact Bool.not_eq_true _ ▸ (by simpa using hws)
      · have := List.mem_takeWhile_imp hx'
        simpa using this
    · exact ih w hw'

/-- `pySplit` of a single non-empty whitespace-free word. -/
theorem pySplit_word (w : Str) (hne : w ≠ []) (hws : ∀ c ∈ w, pyWs c = false) :
    pySplit w = [w] := by
  cases w with
  | nil => exact absurd rfl hne
  | cons c t =>
    have hc : pyWs c = false := hws c (List.mem_cons_self c t)
    have ht := takeWhile_all (p := fun x => !pyWs x) t
      (fun x hx => by simp [hws x (List.mem_cons_of_mem c hx)])
    rw [pySplit, if_neg (by simp [hc]), ht.1, ht.2]
    rw [show pySplit ([] : Str) = [] by rw [pySplit]]

/-- `pySplit` of a word, a space, and a remainder. -/
theorem pySplit_word_append (w : Str) (rest : Str) (hne : w ≠ [])
    (hws : ∀ c ∈ w, pyWs c = false) :
    pySplit (w ++ ' ' :: rest) = w :: pySplit rest := by
  cases w with
  | nil => exact absurd rfl hne
  | cons c t =>
    have hc : pyWs c = false := hws c (List.mem_cons_self c t)
    have htall : ∀ x ∈ t, (fun x => !pyWs x) x = true :=
      fun x hx => by simp [hws x (List.mem_cons_of_mem c hx)]
    rw [List.cons_append, pySplit, if_neg (by simp [hc])]
    rw [List.takeWhile_append_of_pos htall, List.dropWhile_append_of_pos htall]
    rw [show (' ' :: rest).takeWhile (fun x => !pyWs x) = [] by
      rw [List.takeWhile_cons]; simp [pyWs]]
    rw [show (' ' :: rest).dropWhile (fun x => !pyWs x) = ' ' :: rest by
      rw [List.dropWhile_cons]; simp [pyWs]]
    rw [show pySplit (' ' :: rest) = pySplit rest by
      rw [pySplit, if_pos (by simp [pyWs])]]
    simp

/-- Splitting undoes joining on lists of non-empty whitespace-free words. -/
theorem pySplit_joinSpace : ∀ ps : List Str,
    (∀ w ∈ ps, w ≠ [] ∧ ∀ c ∈ w, pyWs c = false) → pySplit (joinSpace ps) = ps := by
  intro ps
  induction ps with
  | nil =>
    intro _
    rw [show joinSpace ([] : List Str) = [] from rfl]
    rw [pySplit]
  | cons w ws ih =>
    intro h
    have hw := h w (List.mem_cons_self w ws)
    cases ws with
    | nil => exact pySplit_word w hw.1 hw.2
    | cons v vs =>
      rw [show joinSpace (w :: v :: vs) = w ++ ' ' :: joinSpace (v :: vs) from rfl]
      rw [pySplit_word_append w _ hw.1 hw.2]
      rw [ih (fun u hu => h u (List.mem_cons_of_mem w hu))]

/-- `pySplit` commutes with `title` (word case conversion never touches
whitespace, and the title flag restarts at `false` after whitespace). -/
theorem pySplit_titleAux_false_aux :
    ∀ (n : Nat) (x : Str), x.length ≤ n →
      pySplit (titleAux false x) = (pySplit x).map (titleAux false) := by
  intro n
  induction n with
  | zero =>
    intro x hx
    have hx0 : x = [] := List.eq_nil_of_length_eq_zero (Nat.le_zero.mp hx)
    subst hx0
    rw [show titleAux false ([] : Str) = [] from rfl, pySplit]
    rfl
  | succ n ih =>
    intro x hx
    cases x with
    | nil =>
      rw [show titleAux false ([] : Str) = [] from rfl, pySplit]
      rfl
    | cons c t =>
      by_cases hw : pyWs c
      · have ha := ws_not_alpha c hw
        rw [show titleAux false (c :: t) = c :: titleAux false t by simp [titleAux, ha]]
        rw [pySplit, if_pos hw, pySplit, if_pos hw]
        exact ih t (by simpa using hx)
      · have hc' : pyWs (if isAlphaA c then pyUpperChar c else c) = false := by
          split
          · rw [pyWs_pyUpperChar]
            simpa using hw
          · simpa using hw
        rw [show titleAux false (c :: t) =
            (if isAlphaA c then pyUpperChar c else c) :: titleAux (isAlphaA c) t by
          by_cases ha : isAlphaA c <;> simp [titleAux, ha]]
        rw [pySplit, if_neg (show ¬(pyWs (if isAlphaA c then pyUpperChar c else c) = true) by
          simp [hc'])]
        rw [show pySplit (c :: t) =
            (c :: t.takeWhile (fun x => !pyWs x)) :: pySplit (t.dropWhile (fun x => !pyWs x)) by
          rw [pySplit, if_neg (show ¬(pyWs c = true) by simpa using hw)]]
        rw [takeWhile_titleAux]
        obtain ⟨f, hf⟩ := dropWhile_titleAux (isAlphaA c) t
        rw [hf]
        rw [List.map_cons]
        congr 1
        · rw [show titleAux false (c :: t.takeWhile (fun x => !pyWs x)) =
              (if isAlphaA c then pyUpperChar c else c) ::
                titleAux (isAlphaA c) (t.takeWhile (fun x => !pyWs x)) by
            by_cases ha : isAlphaA c <;> simp [titleAux, ha]]
        · cases hrest : t.dropWhile (fun x => !pyWs x) with
          | nil =>
            rw [show titleAux f ([] : Str) = [] from rfl, pySplit]
            simp
          | cons r rest' =>
            have hr : pyWs r = true := by
              have := dropWhile_head_false t r rest' hrest
              simpa using this
            have har := ws_not_alpha r hr
            rw [show titleAux f (r :: rest') = r :: titleAux false rest' by
              simp [titleAux, har]]
            rw [pySplit, if_pos hr, pySplit, if_pos hr]
            have hlen : rest'.length ≤ n := by
              have h1 := length_dropWhile_le (fun x => !pyWs x) t
              rw [hrest] at h1
              simp only [List.length_cons] at h1 hx
              omega
            exact ih rest' hlen

theorem pySplit_pyTitle (x : Str) : pySplit (pyTitle x) = (pySplit x).map pyTitle :=
  pySplit_titleAux_false_aux x.length x (Nat.le_refl _)

/-- `title` distributes over space-joining. -/
theorem pyTitle_joinSpace : ∀ ps : List Str, pyTitle (joinSpace ps) = joinSpace (ps.map pyTitle) := by
  intro ps
  induction ps with
  | nil => rfl
  | cons w ws ih =>
    cases ws with
    | nil => rfl
    | cons v vs =>
      rw [show joinSpace (w :: v :: vs) = w ++ ' ' :: joinSpace (v :: vs) from rfl]
      rw [List.map_cons,
        show joinSpace (pyTitle w :: (v :: vs).map pyTitle) =
          pyTitle w ++ ' ' :: joinSpace ((v :: vs).map pyTitle) by
        cases vs <;> rfl]
      rw [← ih]
      unfold pyTitle
      rw [titleAux_append]
      congr 1

/-- Lower-casing sees through `title`, so noise-word membership is stable
under `title`. -/
theorem filter_noise_map_title (ps : List Str) :
    ((ps.map pyTitle).filter (fun p => !smsNoise.contains (lowerStr p))) =
      (ps.filter (fun p => !smsNoise.contains (lowerStr p))).map pyTitle := by
  rw [List.filter_map]
  congr 1
  apply List.filter_congr
  intro w _
  show (!smsNoise.contains (lowerStr (pyTitle w))) = _
  rw [show lowerStr (pyTitle w) = lowerStr w from lowerStr_titleAux false w]

theorem dropWhile_eq_self_of_head {p : Char → Bool} (s : Str)
    (h : ∀ c, s.head? = some c → p c = false) : s.dropWhile p = s := by
  cases s with
  | nil => rfl
  | cons c t =>
    rw [List.dropWhile_cons, h c rfl]
    simp

/-- A string whose first and last characters are non-whitespace is already
stripped. -/
theorem pyStrip_eq_self (s : Str)
    (h1 : ∀ c, s.head? = some c → pyWs c = false)
    (h2 : ∀ c, s.getLast? = some c → pyWs c = false) : pyStrip s = s := by
  unfold pyStrip
  rw [dropWhile_eq_self_of_head s h1]
  rw [dropWhile_eq_self_of_head s.reverse
    (fun c hc => h2 c (by rwa [List.head?_reverse] at hc))]
  exact List.reverse_reverse s

theorem pyStrip_getLast (s : Str) :
    ∀ c, (pyStrip s).getLast? = some c → pyWs c = false := by
  intro c hc
  unfold pyStrip at hc
  rw [List.getLast?_reverse] at hc
  exact head?_dropWhile_false _ c hc

theorem pyStrip_head (s : Str) :
    ∀ c, (pyStrip s).head? = some c → pyWs c = false := by
  intro c hc
  unfold pyStrip at hc
  rw [List.head?_reverse] at hc
  obtain ⟨pre, hpre⟩ := List.dropWhile_suffix (l := (s.dropWhile pyWs).reverse) pyWs
  have hne : (s.dropWhile pyWs).reverse.dropWhile pyWs ≠ [] := by
    intro h0
    rw [h0] at hc
    cases hc
  have h3 : ((s.dropWhile pyWs).reverse).getLast? = some c := by
    rw [← hpre, List.getLast?_append_of_ne_nil pre hne, hc]
  rw [List.getLast?_reverse] at h3
  exact head?_dropWhile_false _ c h3

/-- `strip` is idempotent. -/
theorem pyStrip_pyStrip (s : Str) : pyStrip (pyStrip s) = pyStrip s :=
  pyStrip_eq_self _ (pyStrip_head s) (pyStrip_getLast s)

theorem joinSpace_ne_nil : ∀ ps : List Str, ps ≠ [] → (∀ w ∈ ps, w ≠ []) →
    joinSpace ps ≠ [] := by
  intro ps hne hw
  cases ps with
  | nil => exact absurd rfl hne
  | cons w ws =>
    cases ws with
    | nil => exact hw w (List.mem_cons_self w [])
    | cons v vs =>
      rw [show joinSpace (w :: v :: vs) = w ++ ' ' :: joinSpace (v :: vs) from rfl]
      simp

theorem head?_joinSpace (ps : List Str)
    (h : ∀ w ∈ ps, w ≠ [] ∧ ∀ c ∈ w, pyWs c = false) :
    ∀ c, (joinSpace ps).head? = some c → pyWs c = false := by
  intro c hc
  cases ps with
  | nil => cases hc
  | cons w ws =>
    obtain ⟨hne, hws⟩ := h w (List.mem_cons_self w ws)
    cases w with
    | nil => exact absurd rfl hne
    | cons a u =>
      have ha : (joinSpace ((a :: u) :: ws)).head? = some a := by
        cases ws with
        | nil => rfl
        | cons v vs => rfl
      rw [ha] at hc
      cases hc
      exact hws c (List.mem_cons_self c u)

theorem getLast?_joinSpace : ∀ ps : List Str,
    (∀ w ∈ ps, w ≠ [] ∧ ∀ c ∈ w, pyWs c = false) →
    ∀ c, (joinSpace ps).getLast? = some c → pyWs c = false := by
  intro ps
  induction ps with
  | nil => intro _ c hc; cases hc
  | cons w ws ih =>
    intro h c hc
    cases ws with
    | nil =>
      obtain ⟨hne, hws⟩ := h w (List.mem_cons_self w [])
      rw [show (joinSpace [w]).getLast? = w.getLast? from rfl] at hc
      exact hws c (List.mem_of_mem_getLast? hc)
    | cons v vs =>
      have hvne : joinSpace (v :: vs) ≠ [] :=
        joinSpace_ne_nil (v :: vs) (by simp)
          (fun x hx => (h x (List.mem_cons_of_mem w hx)).1)
      rw [show joinSpace (w :: v :: vs) = w ++ ' ' :: joinSpace (v :: vs) from rfl] at hc
      rw [List.getLast?_append_of_ne_nil w (by simp)] at hc
      rw [show (' ' :: joinSpace (v :: vs)) = [' '] ++ joinSpace (v :: vs) from rfl] at hc
      rw [List.getLast?_append_of_ne_nil [' '] hvne] at hc
      exact ih (fun x hx => h x (List.mem_cons_of_mem w hx)) c hc

/-- Joining non-empty whitespace-free words gives a stripped string. -/
theorem pyStrip_joinSpace (ps : List Str)
    (h : ∀ w ∈ ps, w ≠ [] ∧ ∀ c ∈ w, pyWs c = false) :
    pyStrip (joinSpace ps) = joinSpace ps :=
  pyStrip_eq_self _ (head?_joinSpace ps h) (getLast?_joinSpace ps h)

/-- `title` preserves being stripped. -/
theorem pyStrip_pyTitle_of_stripped (z : Str) (hz : pyStrip z = z) :
    pyStrip (pyTitle z) = pyTitle z := by
  have hmaph : (pyTitle z).head?.map pyWs = z.head?.map pyWs := by
    rw [← List.head?_map, ← List.head?_map, pyTitle, map_pyWs_titleAux]
  have hmapl : (pyTitle z).getLast?.map pyWs = z.getLast?.map pyWs := by
    rw [← List.getLast?_map, ← List.getLast?_map, pyTitle, map_pyWs_titleAux]
  apply pyStrip_eq_self
  · intro c hc
    cases hd : z.head? with
    | none =>
      rw [hc, hd] at hmaph
      simp at hmaph
    | some d =>
      rw [hc, hd] at hmaph
      have heq : pyWs c = pyWs d := by simpa using hmaph
      rw [heq]
      exact pyStrip_head z d (by rw [hz]; exact hd)
  · intro c hc
    cases hd : z.getLast? with
    | none =>
      rw [hc, hd] at hmapl
      simp at hmapl
    | some d =>
      rw [hc, hd] at hmapl
      have heq : pyWs c = pyWs d := by simpa using hmapl
      rw [heq]
      exact pyStrip_getLast z d (by rw [hz]; exact hd)

/-- The part of `clean_counterparty` before the final `title()`. -/
def cleanCore (cp : Str) : Str :=
  if (joinSpace ((pySplit (pyStrip cp)).filter
      (fun p => !smsNoise.contains (lowerStr p)))).isEmpty
  then pyStrip cp
  else joinSpace ((pySplit (pyStrip cp)).filter
      (fun p => !smsNoise.contains (lowerStr p)))

theorem clean_counterparty_eq_core (cp : Str) :
    clean_counterparty cp = pyTitle (cleanCore cp) := rfl

theorem pyTitle_pyTitle (s : Str) : pyTitle (pyTitle s) = pyTitle s :=
  titleAux_titleAux false s

/-- One pass of cleaning followed by `title` is a fixed point of the
pre-`title` cleaning body. -/
theorem cleanCore_pyTitle_cleanCore (cp : Str) :
    cleanCore (pyTitle (cleanCore cp)) = pyTitle (cleanCore cp) := by
  by_cases hE : (joinSpace ((pySplit (pyStrip cp)).filter
      (fun p => !smsNoise.contains (lowerStr p)))).isEmpty = true
  · have hz : cleanCore cp = pyStrip cp := by unfold cleanCore; rw [if_pos hE]
    have hfilter : (pySplit (pyStrip cp)).filter
        (fun p => !smsNoise.contains (lowerStr p)) = [] := by
      cases hf : (pySplit (pyStrip cp)).filter
          (fun p => !smsNoise.contains (lowerStr p)) with
      | nil => rfl
      | cons w ws =>
        exfalso
        have hwprops : ∀ x ∈ w :: ws, x ≠ [] := by
          intro x hx
          rw [← hf] at hx
          exact (pySplit_pieces _ x (List.mem_of_mem_filter hx)).1
        have hnn := joinSpace_ne_nil (w :: ws) (by simp) hwprops
        rw [hf] at hE
        exact hnn (List.isEmpty_iff.mp hE)
    rw [hz]
    have hzfix : pyStrip (pyStrip cp) = pyStrip cp := pyStrip_pyStrip cp
    have hstrip : pyStrip (pyTitle (pyStrip cp)) = pyTitle (pyStrip cp) :=
      pyStrip_pyTitle_of_stripped _ hzfix
    have hfil2 : (pySplit (pyTitle (pyStrip cp))).filter
        (fun p => !smsNoise.contains (lowerStr p)) = [] := by
      rw [pySplit_pyTitle, filter_noise_map_title, hfilter]
      rfl
    unfold cleanCore
    rw [hstrip, hfil2]
    rfl
  · have hz : cleanCore cp = joinSpace ((pySplit (pyStrip cp)).filter
        (fun p => !smsNoise.contains (lowerStr p))) := by
      unfold cleanCore; rw [if_neg hE]
    set F := (pySplit (pyStrip cp)).filter
        (fun p => !smsNoise.contains (lowerStr p)) with hF
    have hFprops : ∀ w ∈ F, w ≠ [] ∧ ∀ c ∈ w, pyWs c = false := by
      intro w hw
      rw [hF] at hw
      exact pySplit_pieces _ w (List.mem_of_mem_filter hw)
    have hFne : F ≠ [] := by
      intro h0
      apply hE
      rw [h0]
      rfl
    have hstripJ : pyStrip (joinSpace F) = joinSpace F := pyStrip_joinSpace F hFprops
    rw [hz]
    have htitle : pyTitle (joinSpace F) = joinSpace (F.map pyTitle) :=
      pyTitle_joinSpace F
    have hstrip : pyStrip (pyTitle (joinSpace F)) = pyTitle (joinSpace F) :=
      pyStrip_pyTitle_of_stripped _ hstripJ
    have hsplitJ : pySplit (joinSpace F) = F := pySplit_joinSpace F hFprops
    have hFsat : ∀ w ∈ F, (fun p => !smsNoise.contains (lowerStr p)) w = true := by
      intro w hw
      rw [hF] at hw
      have h1 := List.of_mem_filter hw
      exact h1
    have hfil2 : (pySplit (pyTitle (joinSpace F))).filter
        (fun p => !smsNoise.contains (lowerStr p)) = F.map pyTitle := by
      rw [pySplit_pyTitle, hsplitJ, filter_noise_map_title,
        List.filter_eq_self.mpr hFsat]
    unfold cleanCore
    rw [hstrip, hfil2, ← htitle, ite_self]

/-- **C10.** The SMS counterparty cleaner `clean_counterparty` is idempotent:
for every string `s`, `clean_counterparty (clean_counterparty s) =
clean_counterparty s` — noise-word removal, whitespace re-joining, the
empty-result fallback to the stripped capture, and title-casing applied a
second time leave the already-cleaned output unchanged. -/
theorem C10_clean_counterparty_idempotent (cp : Str) :
    clean_counterparty (clean_counterparty cp) = clean_counterparty cp := by
  rw [clean_counterparty_eq_core (clean_counterparty cp),
    clean_counterparty_eq_core cp, cleanCore_pyTitle_cleanCore cp,
    pyTitle_pyTitle]
